import Mathlib

/-!
Verification of the Nexus gateway routing and failover engine.

The definitions below are a shallow embedding of the Python sources:
  - services/gateways/base.py        (ChargeStatus, GatewayResult, adapters)
  - services/bank_simulator.py       (authorize_payment)
  - services/gateways/simulator_adapter.py (SimulatorAdapter.charge)
  - services/failover.py             (execute_with_failover)
  - services/routing_engine.py       (select_gateways, _matches)
  - services/gateways/__init__.py    (get_available_gateways)
  - services/payment_service.py      (create_intent, process_payment)

Modelling conventions: Python ints are Int; Python strings are String;
database rows are explicit lists carried in a Db record; SQLAlchemy
queries are filters over those lists; raised exceptions are Except
errors; wall-clock timestamps and the artificial simulator latency are
not modelled (they carry no decision content).
-/

namespace Nexus

/-! ## Python string primitives used by the embedded code -/

/-- Python str.upper for the ASCII strings handled here (currency codes,
gateway names): uppercases every character. -/
def pyUpper (s : String) : String := String.mk (s.toList.map Char.toUpper)

/-- Python str.capitalize: first character uppercased, the rest
lowercased. -/
def pyCapitalize (s : String) : String :=
  match s.toList with
  | [] => ""
  | c :: cs => String.mk (c.toUpper :: cs.map Char.toLower)

/-- Python str.endswith: true when the code points of t form a final
segment of the code points of s. -/
def pyEndsWith (s t : String) : Bool :=
  let ls := s.toList
  let lt := t.toList
  decide (lt.length ≤ ls.length) && decide (ls.drop (ls.length - lt.length) = lt)

/-- Python slicing s[:n]: the first n characters of s. -/
def pyTake (s : String) (n : Nat) : String := String.mk (s.toList.take n)

/-- Python truthiness of an optional string (None and the empty string
are falsy): used for os.getenv results and nullable text columns. -/
def pyTruthy : Option String → Bool
  | none => false
  | some s => s ≠ ""

/-- Python repr of a list of strings, as interpolated by an f-string:
bracketed, comma separated, each element in single quotes (the element
strings here are plain gateway names without quotes or escapes). -/
def pyListRepr (xs : List String) : String :=
  "[" ++ String.intercalate ", " (xs.map (fun s => "\x27" ++ s ++ "\x27")) ++ "]"

/-- Python formatting of amount / 100 with two decimal places, as in the
f-string of execute_with_failover, for integer amounts. -/
def fmtAmount (amount : Int) : String :=
  let sign := if amount < 0 then "-" else ""
  let a := amount.natAbs
  let cents := a % 100
  sign ++ toString (a / 100) ++ "." ++ (if cents < 10 then "0" else "") ++ toString cents

/-! ## Gateway adapter contract (services/gateways/base.py) -/

/-- ChargeStatus from services/gateways/base.py. -/
inductive ChargeStatus where
  | success
  | failed
  | error
deriving DecidableEq, Repr

/-- The .value string of a ChargeStatus member. -/
def ChargeStatus.value : ChargeStatus → String
  | .success => "success"
  | .failed => "failed"
  | .error => "error"

/-- GatewayResult dataclass from services/gateways/base.py. -/
structure GatewayResult where
  status : ChargeStatus
  gatewayName : String
  transactionId : Option String
  reason : String
deriving DecidableEq, Repr

/-- The metadata dict passed to charge; only the card_number and cvv
keys are ever consulted, so the dict is abstracted to those two
optional entries. -/
structure MetaDict where
  cardNumber : Option String
  cvv : Option String
deriving DecidableEq, Repr

/-- A charge attempt either returns a GatewayResult or raises an
exception carrying a message (the except branch of the executor). -/
inductive ChargeOutcome where
  | ok (r : GatewayResult)
  | exn (msg : String)

/-- A gateway adapter: its name and its charge behaviour as a function
of (amount, currency, idempotency_key, metadata). The health_check
capability is not consulted by any verified path and is omitted. -/
structure Gateway where
  name : String
  charge : Int → String → String → Option MetaDict → ChargeOutcome

/-! ## Bank simulator (services/bank_simulator.py) -/

/-- BankDecision from services/bank_simulator.py. -/
inductive BankDecision where
  | success
  | failed
deriving DecidableEq, Repr

/-- CardDetails dataclass. -/
structure CardDetails where
  cardNumber : String
  cvv : String
deriving DecidableEq, Repr

/-- BankResponse dataclass. -/
structure BankResponse where
  decision : BankDecision
  reason : String
deriving DecidableEq, Repr

/-- authorize_payment from services/bank_simulator.py. -/
def authorizePayment (amount : Int) (card : CardDetails) : BankResponse :=
  if pyEndsWith card.cardNumber "0000" then
    ⟨.failed, "Insufficient funds."⟩
  else if amount > 100000 then
    ⟨.failed, "Transaction flagged for fraud risk (amount exceeds limit)."⟩
  else
    ⟨.success, "Authorization approved."⟩

/-! ## Simulator adapter (services/gateways/simulator_adapter.py) -/

/-- SimulatorAdapter.charge: extracts card details from the metadata
dict (with the defaults of the source), runs authorize_payment, and
maps the bank decision onto a GatewayResult. The artificial latency
sleep has no observable effect and is not modelled. -/
def simulatorCharge (amount : Int) (currency idempotencyKey : String)
    (metadata : Option MetaDict) : GatewayResult :=
  let md := metadata.getD ⟨none, none⟩
  let cardNumber := md.cardNumber.getD "4111111111111111"
  let cvv := md.cvv.getD "123"
  let bankResp := authorizePayment amount ⟨cardNumber, cvv⟩
  match bankResp.decision with
  | .success =>
      ⟨.success, "simulator", some ("sim_" ++ pyTake idempotencyKey 16), bankResp.reason⟩
  | .failed =>
      ⟨.failed, "simulator", none, bankResp.reason⟩

/-- The simulator gateway object: name "simulator", charge never
raises. -/
def simulatorGateway : Gateway :=
  ⟨"simulator", fun a c k m => .ok (simulatorCharge a c k m)⟩

/-! ## Failover executor (services/failover.py) -/

/-- TraceEntry from services/failover.py: the wall-clock timestamp is
not modelled (it carries no decision content). -/
structure TraceEntry where
  source : String
  message : String
deriving DecidableEq, Repr

/-- FailoverResult from services/failover.py. trace_json is represented
by the entry list it serializes. -/
structure FailoverResult where
  gatewayResult : Option GatewayResult
  trace : List TraceEntry
  gatewayUsed : String
deriving DecidableEq, Repr

/-- Output of execute_with_failover, instrumented with the list of
gateway names on which charge() was actually invoked, in call order.
The attempted list is an observation of the execution; it is appended
to exactly when the source calls gateway.charge. -/
structure FailoverOutput where
  result : FailoverResult
  attempted : List String
deriving DecidableEq, Repr

/-- The charge call of the executor together with the except branch
that normalizes a raised exception into an ERROR GatewayResult whose
reason is the exception message. -/
def normCharge (g : Gateway) (amount : Int) (currency idempotencyKey : String)
    (metadata : Option MetaDict) : GatewayResult :=
  match g.charge amount currency idempotencyKey metadata with
  | .ok r => r
  | .exn m => ⟨.error, g.name, none, m⟩

/-- The _gateway_reason helper of services/failover.py. -/
def gatewayReason (g : Gateway) (currency : String) : String :=
  if pyUpper currency == "INR" && g.name == "razorpay" then
    "Optimized for INR"
  else if (pyUpper currency == "USD" || pyUpper currency == "EUR"
      || pyUpper currency == "GBP") && g.name == "stripe" then
    "Optimized for international"
  else if g.name == "simulator" then
    "Built-in simulator"
  else
    "Policy match"

/-- The trace entry appended before each charge attempt. -/
def routingEntry (g : Gateway) (currency : String) : TraceEntry :=
  ⟨"engine", "Routing to " ++ pyCapitalize g.name ++ " (" ++ gatewayReason g currency ++ ")."⟩

/-- The trace entry appended when a charge attempt yields ERROR. -/
def errorEntry (g : Gateway) (reason : String) : TraceEntry :=
  ⟨"engine", "Error from " ++ pyCapitalize g.name ++ ": " ++ reason⟩

/-- The trace entry appended on SUCCESS. -/
def successEntry (g : Gateway) : TraceEntry :=
  ⟨"nexus", "Payment Succeeded via " ++ pyCapitalize g.name ++ "."⟩

/-- The trace entry appended on a FAILED decline. -/
def declineEntry (g : Gateway) (reason : String) : TraceEntry :=
  ⟨"nexus", "Payment Declined by " ++ pyCapitalize g.name ++ ": " ++ reason⟩

/-- The for-loop of execute_with_failover over the remaining gateways.
Returns the trace entries the loop appends, the names of the gateways
whose charge was invoked, and the final (result, gateway_used) pair
when a terminal SUCCESS or FAILED outcome stopped the loop. -/
def failoverLoop (amount : Int) (currency idempotencyKey : String)
    (metadata : Option MetaDict) :
    List Gateway → List TraceEntry × List String × Option (GatewayResult × String)
  | [] => ([], [], none)
  | g :: rest =>
    let gwResult := normCharge g amount currency idempotencyKey metadata
    if gwResult.status = .success then
      ([routingEntry g currency, successEntry g], [g.name], some (gwResult, g.name))
    else if gwResult.status = .failed then
      ([routingEntry g currency, declineEntry g gwResult.reason], [g.name],
        some (gwResult, g.name))
    else
      let hop : List TraceEntry :=
        match rest with
        | next :: _ => [⟨"engine", "Switching to " ++ pyCapitalize next.name ++ " backup..."⟩]
        | [] => [⟨"engine", "No more gateways available for failover."⟩]
      let tail := failoverLoop amount currency idempotencyKey metadata rest
      (routingEntry g currency :: errorEntry g gwResult.reason :: hop ++ tail.1,
        g.name :: tail.2.1, tail.2.2)

/-- The GatewayResult synthesized when the loop exits without a
terminal outcome. -/
def exhaustedResult : GatewayResult :=
  ⟨.error, "nexus", none, "No gateways found or all gateways failed to initialize."⟩

/-- execute_with_failover from services/failover.py. -/
def executeWithFailover (gateways : List Gateway) (amount : Int)
    (currency idempotencyKey : String) (metadata : Option MetaDict) : FailoverOutput :=
  let header : List TraceEntry :=
    [⟨"nexus", "Request received for " ++ fmtAmount amount ++ " " ++ currency ++ "."⟩,
     ⟨"engine", "Evaluating " ++ toString gateways.length ++ " gateway(s): "
        ++ pyListRepr (gateways.map (·.name))⟩]
  match failoverLoop amount currency idempotencyKey metadata gateways with
  | (tr, att, some (res, used)) =>
      ⟨⟨some res, header ++ tr, used⟩, att⟩
  | (tr, att, none) =>
      let lastName := match gateways.getLast? with
        | some g => g.name
        | none => "none"
      ⟨⟨some exhaustedResult,
        header ++ tr ++ [⟨"nexus", "All gateways exhausted. Payment failed."⟩],
        lastName⟩, att⟩

/-! ## Routing rules and their condition payloads (models/routing_rule.py,
services/routing_engine.py) -/

/-- A parsed JSON value. Numeric literals are modelled as integers: the
condition payloads consulted by the routing engine use integer amounts.
Objects produced by json.loads have unique keys (a duplicated key keeps
the last value), so lookups below take the first matching field of a
unique-key field list. -/
inductive JVal where
  | jnull
  | jbool (b : Bool)
  | jnum (n : Int)
  | jstr (s : String)
  | jarr (xs : List JVal)
  | jobj (fields : List (String × JVal))

/-- Outcome of json.loads on a text payload: either a JSONDecodeError
or a parsed value. Every string falls in exactly one case, so the text
column is abstracted to this outcome. -/
inductive JParse where
  | bad
  | good (v : JVal)

/-- The conditions column of a routing rule as the code observes it:
falsy covers SQL NULL and the empty string (both bypass json.loads);
text p is a non-empty string with parse outcome p. -/
inductive CondField where
  | falsy
  | text (p : JParse)

/-- Uncaught Python runtime faults that the embedded code can raise. -/
inductive PyFault where
  | typeError
  | attributeError
  | keyError
deriving DecidableEq, Repr

/-- RoutingRule row (models/routing_rule.py); id and created_at are not
consulted by the embedded code and are omitted. -/
structure RoutingRule where
  merchantId : String
  ruleType : String
  gatewayName : String
  conditions : CondField
  priority : Int

/-- GatewayHealth row (models/gateway.py). latency_ms is a float column
modelled on an integer carrier; it is never consulted by the routing
engine. -/
structure GatewayHealth where
  gatewayName : String
  status : String
  isSimulatedOutage : Bool
  latencyMs : Int
  message : String
  lastCheckedAt : Int

/-- Python dict.get(key, default) on a JSON value: objects look the key
up, anything else raises AttributeError (no .get attribute). -/
def jGet (v : JVal) (key : String) (dflt : JVal) : Except PyFault JVal :=
  match v with
  | .jobj fields =>
      match fields.lookup key with
      | some w => .ok w
      | none => .ok dflt
  | _ => .error .attributeError

/-- Python x.upper() on a value that came from JSON: defined for
strings, AttributeError otherwise. -/
def jUpper : JVal → Except PyFault String
  | .jstr s => .ok (pyUpper s)
  | _ => .error .attributeError

/-- Python amount >= x where amount is an int and x came from JSON:
numbers compare numerically, booleans coerce (True = 1), anything else
raises TypeError. -/
def pyGeInt (amount : Int) : JVal → Except PyFault Bool
  | .jnum n => .ok (decide (amount ≥ n))
  | .jbool b => .ok (decide (amount ≥ (if b then 1 else 0)))
  | _ => .error .typeError

/-- The part of _matches after json.loads succeeded (or after the falsy
conditions column was replaced by the empty dict). The .get calls and
the comparisons sit outside the try/except of the source, so their
faults propagate. -/
def matchesParsed (rule : RoutingRule) (conditions : JVal) (amount : Int)
    (currency : String) : Except PyFault Bool :=
  if rule.ruleType == "currency" then
    match jGet conditions "currency" (.jstr "") with
    | .error f => .error f
    | .ok tv =>
      match jUpper tv with
      | .error f => .error f
      | .ok targetCurrency => .ok (pyUpper currency == targetCurrency)
  else if rule.ruleType == "amount_threshold" then
    match jGet conditions "min_amount" (.jnum 0) with
    | .error f => .error f
    | .ok mv => pyGeInt amount mv
  else
    .ok false

/-- _matches from services/routing_engine.py: priority rules match
before any parsing; only json.loads failures are caught (returning a
non-match); faults from ill-typed parsed payloads propagate. -/
def matchesRule (rule : RoutingRule) (amount : Int) (currency : String) :
    Except PyFault Bool :=
  if rule.ruleType == "priority" then .ok true
  else
    match rule.conditions with
    | .falsy => matchesParsed rule (.jobj []) amount currency
    | .text .bad => .ok false
    | .text (.good v) => matchesParsed rule v amount currency

/-! ## Stable sorting (Python sorted and SQL ORDER BY) -/

/-- Stable insertion: x is placed before the first element it compares
less-or-equal to, so earlier-listed elements stay ahead of equal later
ones. -/
def insertStable (le : α → α → Bool) (x : α) : List α → List α
  | [] => [x]
  | y :: ys => if le x y then x :: y :: ys else y :: insertStable le x ys

/-- Stable insertion sort: models Python sorted (a stable sort) and the
ORDER BY of the rules query with ties kept in row order. -/
def sortStable (le : α → α → Bool) : List α → List α
  | [] => []
  | x :: xs => insertStable le x (sortStable le xs)

/-- Lexicographic comparison of code-point lists: the order Python uses
on strings. -/
def charListLe : List Char → List Char → Bool
  | [], _ => true
  | _ :: _, [] => false
  | a :: as, b :: bs =>
    if a.toNat < b.toNat then true
    else if b.toNat < a.toNat then false
    else charListLe as bs

/-- Python string less-or-equal. -/
def strLe (a b : String) : Bool := charListLe a.toList b.toList

/-- The tuple key ordering of the fallback append of select_gateways:
sorted by (name == "simulator", name), so every non-simulator name
comes first in lexical order and the simulator is placed last. -/
def fallbackLe (a b : String) : Bool :=
  if (a == "simulator") = (b == "simulator") then strLe a b
  else b == "simulator"

/-! ## Gateway dicts (insertion-ordered, unique keys) -/

/-- Membership of a key in a Python dict modelled as an ordered
association list. -/
def dictContains (d : List (String × α)) (k : String) : Bool :=
  d.any (fun kv => kv.1 == k)

/-- Python dict assignment d[k] = v: replaces in place when the key
exists, appends otherwise. -/
def dictInsert (d : List (String × α)) (k : String) (v : α) : List (String × α) :=
  if dictContains d k then
    d.map (fun kv => if kv.1 == k then (k, v) else kv)
  else
    d ++ [(k, v)]

/-- Python dict lookup d[k] as an Option (first matching key; the dicts
built by the code have unique keys). -/
def dictLookup (d : List (String × α)) (k : String) : Option α :=
  match d with
  | [] => none
  | (k', v) :: rest => if k' == k then some v else dictLookup rest k

/-! ## select_gateways (services/routing_engine.py) -/

/-- The gateway names currently flagged with a simulated outage: the
set built from the GatewayHealth query filtered on
is_simulated_outage. -/
def outageNames (health : List GatewayHealth) : List String :=
  (health.filter (fun h => h.isSimulatedOutage)).map (fun h => h.gatewayName)

/-- The rule loop of select_gateways: walks the priority-ordered rules,
skipping rules whose target gateway is not an available key or was
already selected, and appends the target of each matching rule. A
fault raised by _matches propagates. -/
def ruleLoop (amount : Int) (currency : String) (keys : List String) :
    List RoutingRule → List String → Except PyFault (List String)
  | [], ordered => .ok ordered
  | r :: rs, ordered =>
    if !(keys.contains r.gatewayName) then ruleLoop amount currency keys rs ordered
    else if ordered.contains r.gatewayName then ruleLoop amount currency keys rs ordered
    else
      match matchesRule r amount currency with
      | .error f => .error f
      | .ok true => ruleLoop amount currency keys rs (ordered ++ [r.gatewayName])
      | .ok false => ruleLoop amount currency keys rs ordered

/-- The final list comprehension [filtered_available[n] for n in
ordered]: dict indexing raises KeyError on a missing key. -/
def lookupAll (d : List (String × Gateway)) : List String → Except PyFault (List Gateway)
  | [] => .ok []
  | n :: ns =>
    match dictLookup d n with
    | none => .error .keyError
    | some g =>
      match lookupAll d ns with
      | .error f => .error f
      | .ok gs => .ok (g :: gs)

/-- select_gateways from services/routing_engine.py. The two queries
are modelled by the rule and health lists; ORDER BY priority ASC is the
stable sort on the priority column. -/
def selectGateways (rules : List RoutingRule) (health : List GatewayHealth)
    (merchantId : String) (amount : Int) (currency : String)
    (availableGateways : List (String × Gateway)) : Except PyFault (List Gateway) :=
  let merchantRules :=
    sortStable (fun a b => decide (a.priority ≤ b.priority))
      (rules.filter (fun r => r.merchantId == merchantId))
  let outages := outageNames health
  let filteredAvailable := availableGateways.filter (fun kv => !(outages.contains kv.1))
  let keys := filteredAvailable.map (fun kv => kv.1)
  match ruleLoop amount currency keys merchantRules [] with
  | .error f => .error f
  | .ok ordered =>
    let finalNames :=
      ordered ++ (sortStable fallbackLe keys).filter (fun n => !(ordered.contains n))
    lookupAll filteredAvailable finalNames

/-! ## Reference routing per the specification (for the refinement
comparison of the routing claim) -/

/-- Modelled from the spec: the match predicate as the spec states it,
where malformed condition data is treated as a non-match, never an
error. Agrees with _matches wherever _matches does not raise. -/
def specMatches (rule : RoutingRule) (amount : Int) (currency : String) : Bool :=
  match matchesRule rule amount currency with
  | .ok b => b
  | .error _ => false

/-- Modelled from the spec: the rule walk of spec section 4.3 step 3 in
order, skipping targets that are not available or already selected,
appending each match. -/
def refRuleSelect (amount : Int) (currency : String) (keys : List String) :
    List RoutingRule → List String → List String
  | [], ordered => ordered
  | r :: rs, ordered =>
    if !(keys.contains r.gatewayName) then refRuleSelect amount currency keys rs ordered
    else if ordered.contains r.gatewayName then refRuleSelect amount currency keys rs ordered
    else if specMatches r amount currency then
      refRuleSelect amount currency keys rs (ordered ++ [r.gatewayName])
    else refRuleSelect amount currency keys rs ordered

/-- Modelled from the spec (section 4.3 and the routing claim): the
gateways of matching rules in ascending priority order, followed by
every remaining available, non-outage gateway, sorted lexically by
name with the simulator placed last. -/
def referenceSelect (rules : List RoutingRule) (health : List GatewayHealth)
    (merchantId : String) (amount : Int) (currency : String)
    (availableGateways : List (String × Gateway)) : List Gateway :=
  let merchantRules :=
    sortStable (fun a b => decide (a.priority ≤ b.priority))
      (rules.filter (fun r => r.merchantId == merchantId))
  let outages := outageNames health
  let filteredAvailable := availableGateways.filter (fun kv => !(outages.contains kv.1))
  let keys := filteredAvailable.map (fun kv => kv.1)
  let ruleNames := refRuleSelect amount currency keys merchantRules []
  let remaining := keys.filter (fun n => !(ruleNames.contains n))
  let fallback :=
    sortStable strLe (remaining.filter (fun n => !(n == "simulator")))
      ++ remaining.filter (fun n => n == "simulator")
  (ruleNames ++ fallback).filterMap (fun n => dictLookup filteredAvailable n)

/-! ## Gateway factory (services/gateways/__init__.py, models/gateway.py) -/

/-- GatewayConfig row (models/gateway.py); id, extra_config and
created_at are not consulted and are omitted. api_key_encrypted is a
nullable text column. -/
structure GatewayConfig where
  merchantId : String
  gatewayName : String
  enabled : Bool
  apiKeyEncrypted : Option String

/-- The environment variables read by get_available_gateways;
os.getenv yields none when unset. -/
structure Env where
  stripeSecretKey : Option String
  razorpayKeyId : Option String
  razorpayKeySecret : Option String

/-- External behaviours that the repository does not define: the
network charge functions of the two real-processor adapters and the
credential decryptor. They are uninterpreted parameters of the model. -/
structure ExternalBehavior where
  decrypt : String → String
  stripeCharge : String → Int → String → String → Option MetaDict → ChargeOutcome
  razorpayCharge : String → String → Int → String → String → Option MetaDict → ChargeOutcome

/-- StripeAdapter construction: its name property returns "stripe". -/
def stripeAdapter (ext : ExternalBehavior) (apiKey : String) : Gateway :=
  ⟨"stripe", ext.stripeCharge apiKey⟩

/-- RazorpayAdapter construction: its name property returns
"razorpay". -/
def razorpayAdapter (ext : ExternalBehavior) (keyId keySecret : String) : Gateway :=
  ⟨"razorpay", ext.razorpayCharge keyId keySecret⟩

/-- The per-config step of the database loop of
get_available_gateways. -/
def loadConfig (ext : ExternalBehavior) (gws : List (String × Gateway))
    (c : GatewayConfig) : List (String × Gateway) :=
  if !c.enabled then gws
  else if c.gatewayName == "stripe" && pyTruthy c.apiKeyEncrypted then
    dictInsert gws "stripe" (stripeAdapter ext (ext.decrypt (c.apiKeyEncrypted.getD "")))
  else if c.gatewayName == "razorpay" && pyTruthy c.apiKeyEncrypted then
    let decrypted := ext.decrypt (c.apiKeyEncrypted.getD "")
    let parts := decrypted.splitOn ":"
    let keyId := parts.headD ""
    let keySecret := if parts.length > 1 then parts.getD 1 "" else ""
    dictInsert gws "razorpay" (razorpayAdapter ext keyId keySecret)
  else gws

/-- get_available_gateways from services/gateways/__init__.py, in the
form invoked by process_payment (db session and merchant id provided):
enabled credentialed configs of the merchant first, then the
environment-variable fallback for each missing real processor, then
the always-available simulator. -/
def getAvailableGateways (ext : ExternalBehavior) (env : Env)
    (configs : List GatewayConfig) (merchantId : String) : List (String × Gateway) :=
  let merchantConfigs := configs.filter (fun c => c.merchantId == merchantId)
  let step1 := merchantConfigs.foldl (loadConfig ext) []
  let step2 :=
    if !(dictContains step1 "stripe") && pyTruthy env.stripeSecretKey then
      dictInsert step1 "stripe" (stripeAdapter ext (env.stripeSecretKey.getD ""))
    else step1
  let step3 :=
    if !(dictContains step2 "razorpay") && pyTruthy env.razorpayKeyId
        && pyTruthy env.razorpayKeySecret then
      dictInsert step2 "razorpay"
        (razorpayAdapter ext (env.razorpayKeyId.getD "") (env.razorpayKeySecret.getD ""))
    else step2
  dictInsert step3 "simulator" simulatorGateway

/-! ## Payment lifecycle (models/payment.py, services/payment_service.py) -/

/-- PaymentIntent row (models/payment.py); timestamps are not consulted
and are omitted. trace_log stores the serialized trace, represented by
the entry list it encodes. -/
structure PaymentIntent where
  id : String
  merchantId : String
  amount : Int
  currency : String
  status : String
  idempotencyKey : String
  gatewayUsed : Option String
  traceLog : Option (List TraceEntry)
deriving DecidableEq, Repr

/-- The database state visible to the payment service. -/
structure Db where
  intents : List PaymentIntent
  rules : List RoutingRule
  configs : List GatewayConfig
  health : List GatewayHealth

/-- create_intent from services/payment_service.py. The random hex of
the generated pi_ id (secrets.token_hex) is supplied as the freshHex
argument. Returns the database after the call, the intent, and the
created flag. -/
def createIntent (db : Db) (merchantId : String) (amount : Int)
    (currency idempotencyKey freshHex : String) : Db × PaymentIntent × Bool :=
  match db.intents.find? (fun i => i.idempotencyKey == idempotencyKey) with
  | some existing => (db, existing, false)
  | none =>
    let intent : PaymentIntent :=
      { id := "pi_" ++ freshHex
        merchantId := merchantId
        amount := amount
        currency := pyUpper currency
        status := "created"
        idempotencyKey := idempotencyKey
        gatewayUsed := none
        traceLog := none }
    ({ db with intents := db.intents ++ [intent] }, intent, true)

/-- Failure outcomes of process_payment: the two HTTPExceptions it
raises itself, and an uncaught fault propagating out of
select_gateways. -/
inductive ProcessFailure where
  | notFound
  | conflict
  | pyFault (f : PyFault)
deriving DecidableEq, Repr

/-- The result_dict built by process_payment, together with the
returned intent. -/
structure ProcessResult where
  intent : PaymentIntent
  status : String
  gatewayUsed : Option String
  bankDecision : String
  bankReason : String
  traceLog : List TraceEntry
deriving DecidableEq, Repr

/-- Replacement of the first matching row: the ORM mutation of the
object returned by .first(). -/
def updateFirst (p : α → Bool) (f : α → α) : List α → List α
  | [] => []
  | x :: xs => if p x then f x :: xs else x :: updateFirst p f xs

/-- The intent after the status = PROCESSING assignment. -/
def markProcessing (intent : PaymentIntent) : PaymentIntent :=
  { intent with status := "processing" }

/-- The database after committing a mutation of the intent row with the
given id. -/
def setIntent (db : Db) (paymentIntentId : String) (newIntent : PaymentIntent) : Db :=
  { db with intents := updateFirst (fun i => i.id == paymentIntentId) (fun _ => newIntent) db.intents }

/-- Steps 4 and 5 of process_payment: build the available-gateway dict,
select the ordered candidates, and run the failover executor with the
card metadata. -/
def computeFailover (ext : ExternalBehavior) (env : Env) (db : Db)
    (intent : PaymentIntent) (cardNumber cvv : String) : Except PyFault FailoverOutput :=
  let available := getAvailableGateways ext env db.configs intent.merchantId
  match selectGateways db.rules db.health intent.merchantId intent.amount
      intent.currency available with
  | .error f => .error f
  | .ok orderedGateways =>
    .ok (executeWithFailover orderedGateways intent.amount intent.currency
      intent.idempotencyKey (some ⟨some cardNumber, some cvv⟩))

/-- process_payment from services/payment_service.py. Returns the
database after the call together with the failure or the result; the
fire-and-forget webhook dispatch does not touch the intent and is not
modelled. -/
def processPayment (ext : ExternalBehavior) (env : Env) (db : Db)
    (paymentIntentId cardNumber cvv : String) :
    Db × Except ProcessFailure ProcessResult :=
  match db.intents.find? (fun i => i.id == paymentIntentId) with
  | none => (db, .error .notFound)
  | some intent =>
    if intent.status == "succeeded" || intent.status == "failed"
        || intent.status == "cancelled" then
      (db, .error .conflict)
    else
      let intent1 := markProcessing intent
      let db1 := setIntent db paymentIntentId intent1
      match computeFailover ext env db1 intent1 cardNumber cvv with
      | .error f => (db1, .error (.pyFault f))
      | .ok fo =>
        let gwResult := fo.result.gatewayResult
        let newStatus :=
          match gwResult with
          | some r => if r.status = .success then "succeeded" else "failed"
          | none => "failed"
        let intent2 :=
          { intent1 with
              status := newStatus
              gatewayUsed := some fo.result.gatewayUsed
              traceLog := some fo.result.trace }
        let db2 := setIntent db1 paymentIntentId intent2
        (db2, .ok
          { intent := intent2
            status := intent2.status
            gatewayUsed := intent2.gatewayUsed
            bankDecision := (match gwResult with | some r => r.status.value | none => "error")
            bankReason := (match gwResult with | some r => r.reason | none => "All gateways failed")
            traceLog := fo.result.trace })

/-! ## Concrete fixtures used by witnesses and counterexamples -/

/-- A gateway whose charge returns a retryable ERROR result. -/
def gwErrA : Gateway := ⟨"gwa", fun _ _ _ _ => .ok ⟨.error, "gwa", none, "timeout A"⟩⟩

/-- A second gateway whose charge returns a retryable ERROR result. -/
def gwErrB : Gateway := ⟨"gwb", fun _ _ _ _ => .ok ⟨.error, "gwb", none, "timeout B"⟩⟩

/-- A gateway whose charge returns a definitive FAILED decline. -/
def gwFail : Gateway := ⟨"gwf", fun _ _ _ _ => .ok ⟨.failed, "gwf", none, "card declined"⟩⟩

/-- A gateway whose charge succeeds. -/
def gwSucc : Gateway := ⟨"gws", fun _ _ _ _ => .ok ⟨.success, "gws", some "tx1", "approved"⟩⟩

/-- External behaviours where every network charge raises and
decryption is the identity. -/
def extNone : ExternalBehavior :=
  ⟨fun s => s, fun _ _ _ _ _ => .exn "network down", fun _ _ _ _ _ _ => .exn "network down"⟩

/-- Environment with no gateway credentials configured. -/
def envNone : Env := ⟨none, none, none⟩

/-- Environment with only a stripe secret key configured. -/
def envStripe : Env := ⟨some "sk_test", none, none⟩

/-- A freshly created intent fixture. -/
def intentW : PaymentIntent := ⟨"pi_1", "m1", 5000, "INR", "created", "key1", none, none⟩

/-- A database holding just the fixture intent. -/
def dbW : Db := ⟨[intentW], [], [], []⟩

/-! # Theorems -/

/-! ## Failover executor lemmas -/

theorem failoverLoop_append_of_error (amount : Int) (currency idempotencyKey : String)
    (metadata : Option MetaDict) (pre rest : List Gateway)
    (hpre : ∀ p ∈ pre, (normCharge p amount currency idempotencyKey metadata).status = .error) :
    (failoverLoop amount currency idempotencyKey metadata (pre ++ rest)).2 =
      (pre.map (fun p => p.name) ++ (failoverLoop amount currency idempotencyKey metadata rest).2.1,
        (failoverLoop amount currency idempotencyKey metadata rest).2.2) := by
  induction pre with
  | nil => simp
  | cons p pre ih =>
    have hp := hpre p (by simp)
    have hrest : ∀ q ∈ pre, (normCharge q amount currency idempotencyKey metadata).status = .error :=
      fun q hq => hpre q (by simp [hq])
    have hih := ih hrest
    rcases hE : failoverLoop amount currency idempotencyKey metadata (pre ++ rest)
      with ⟨tr, att, fin⟩
    rw [hE] at hih
    simp only [Prod.mk.injEq] at hih
    simp [List.cons_append, failoverLoop, hp, hE, hih.1, hih.2]

theorem failoverLoop_head_terminal (amount : Int) (currency idempotencyKey : String)
    (metadata : Option MetaDict) (g : Gateway) (rest : List Gateway)
    (hg : (normCharge g amount currency idempotencyKey metadata).status = .failed ∨
          (normCharge g amount currency idempotencyKey metadata).status = .success) :
    (failoverLoop amount currency idempotencyKey metadata (g :: rest)).2 =
      ([g.name], some (normCharge g amount currency idempotencyKey metadata, g.name)) := by
  rcases hg with hg | hg <;> simp [failoverLoop, hg]

theorem executeWithFailover_terminal (pre post : List Gateway) (g : Gateway)
    (amount : Int) (currency idempotencyKey : String) (metadata : Option MetaDict)
    (hpre : ∀ p ∈ pre, (normCharge p amount currency idempotencyKey metadata).status = .error)
    (hg : (normCharge g amount currency idempotencyKey metadata).status = .failed ∨
          (normCharge g amount currency idempotencyKey metadata).status = .success) :
    (executeWithFailover (pre ++ g :: post) amount currency idempotencyKey metadata).result.gatewayResult
        = some (normCharge g amount currency idempotencyKey metadata)
    ∧ (executeWithFailover (pre ++ g :: post) amount currency idempotencyKey metadata).result.gatewayUsed
        = g.name
    ∧ (executeWithFailover (pre ++ g :: post) amount currency idempotencyKey metadata).attempted
        = pre.map (fun p => p.name) ++ [g.name] := by
  have hloop := failoverLoop_append_of_error amount currency idempotencyKey metadata pre
    (g :: post) hpre
  have hhead := failoverLoop_head_terminal amount currency idempotencyKey metadata g post hg
  rcases hE : failoverLoop amount currency idempotencyKey metadata (pre ++ g :: post)
    with ⟨tr, att, fin⟩
  rw [hE] at hloop
  rw [hhead] at hloop
  have hatt : att = pre.map (fun p => p.name) ++ [g.name] := by
    have := congrArg Prod.fst hloop; simpa using this
  have hfin : fin = some (normCharge g amount currency idempotencyKey metadata, g.name) := by
    have := congrArg Prod.snd hloop; simpa using this
  subst hatt hfin
  simp [executeWithFailover, hE]

theorem failoverLoop_all_error (amount : Int) (currency idempotencyKey : String)
    (metadata : Option MetaDict) :
    ∀ gws : List Gateway,
      (∀ g ∈ gws, (normCharge g amount currency idempotencyKey metadata).status = .error) →
      (failoverLoop amount currency idempotencyKey metadata gws).2.2 = none
      ∧ (failoverLoop amount currency idempotencyKey metadata gws).2.1
          = gws.map (fun g => g.name)
      ∧ ∀ g ∈ gws,
          errorEntry g (normCharge g amount currency idempotencyKey metadata).reason
            ∈ (failoverLoop amount currency idempotencyKey metadata gws).1 := by
  intro gws
  induction gws with
  | nil => intro _; simp [failoverLoop]
  | cons g rest ih =>
    intro h
    have hg := h g (by simp)
    have hrest : ∀ q ∈ rest, (normCharge q amount currency idempotencyKey metadata).status = .error :=
      fun q hq => h q (by simp [hq])
    obtain ⟨ih1, ih2, ih3⟩ := ih hrest
    refine ⟨?_, ?_, ?_⟩
    · simp [failoverLoop, hg, ih1]
    · simp [failoverLoop, hg, ih2]
    · intro q hq
      rcases List.mem_cons.mp hq with rfl | hq'
      · simp [failoverLoop, hg]
      · have := ih3 q hq'
        simp [failoverLoop, hg]
        right; right
        exact Or.inr this

/-- C1: if the failover executor reaches a candidate whose charge
yields a FAILED decline (every earlier candidate errored), it records
that result as final, attempts no later candidate, and gateway_used is
that candidate's name; and inside process_payment such a FAILED final
result makes the orchestrator commit the intent with status failed and
that gateway recorded. -/
theorem decline_is_final :
    (∀ (pre post : List Gateway) (g : Gateway) (amount : Int)
        (currency idempotencyKey : String) (metadata : Option MetaDict)
        (out : FailoverOutput),
      (∀ p ∈ pre, (normCharge p amount currency idempotencyKey metadata).status = .error) →
      (normCharge g amount currency idempotencyKey metadata).status = .failed →
      executeWithFailover (pre ++ g :: post) amount currency idempotencyKey metadata = out →
      out.result.gatewayResult = some (normCharge g amount currency idempotencyKey metadata)
      ∧ out.result.gatewayUsed = g.name
      ∧ out.attempted = pre.map (fun p => p.name) ++ [g.name])
    ∧ (∀ (ext : ExternalBehavior) (env : Env) (db : Db)
        (paymentIntentId cardNumber cvv : String) (intent : PaymentIntent)
        (pre post : List Gateway) (g : Gateway),
      db.intents.find? (fun i => i.id == paymentIntentId) = some intent →
      (intent.status == "succeeded" || intent.status == "failed"
        || intent.status == "cancelled") = false →
      selectGateways db.rules db.health intent.merchantId intent.amount intent.currency
        (getAvailableGateways ext env db.configs intent.merchantId) = .ok (pre ++ g :: post) →
      (∀ p ∈ pre, (normCharge p intent.amount intent.currency intent.idempotencyKey
        (some ⟨some cardNumber, some cvv⟩)).status = .error) →
      (normCharge g intent.amount intent.currency intent.idempotencyKey
        (some ⟨some cardNumber, some cvv⟩)).status = .failed →
      ∃ pr, (processPayment ext env db paymentIntentId cardNumber cvv).2 = .ok pr
        ∧ pr.intent.status = "failed" ∧ pr.status = "failed"
        ∧ pr.intent.gatewayUsed = some g.name) := by
  constructor
  · intro pre post g amount currency idempotencyKey metadata out hpre hg hout
    have := executeWithFailover_terminal pre post g amount currency idempotencyKey metadata
      hpre (Or.inl hg)
    rw [hout] at this
    exact this
  · intro ext env db paymentIntentId cardNumber cvv intent pre post g hfind hguard hsel hpre hg
    have hterm := executeWithFailover_terminal pre post g intent.amount intent.currency
      intent.idempotencyKey (some ⟨some cardNumber, some cvv⟩) hpre (Or.inl hg)
    have hcf : computeFailover ext env (setIntent db paymentIntentId (markProcessing intent))
        (markProcessing intent) cardNumber cvv
        = .ok (executeWithFailover (pre ++ g :: post) intent.amount intent.currency
            intent.idempotencyKey (some ⟨some cardNumber, some cvv⟩)) := by
      simp only [computeFailover, setIntent, markProcessing]
      rw [hsel]
    simp only [processPayment, hfind, hguard]
    rw [hcf]
    simp only [Bool.false_eq_true, if_false]
    refine ⟨_, rfl, ?_, ?_, ?_⟩
    · simp [hterm.1, hterm.2.1, hg]
    · simp [hterm.1, hterm.2.1, hg]
    · simp [hterm.1, hterm.2.1, hg]

/-- Witness for decline_is_final: a concrete FAILED decline at the
second of three candidates stops the executor there, and a concrete
simulator decline drives process_payment to a failed intent. -/
theorem decline_is_final_witness :
    ((normCharge gwFail 500 "INR" "k" none).status = .failed)
    ∧ ((executeWithFailover [gwErrA, gwFail, gwSucc] 500 "INR" "k" none).attempted
        = ["gwa", "gwf"])
    ∧ (∃ pr, (processPayment extNone envNone dbW "pi_1" "40000000" "123").2 = .ok pr
        ∧ pr.intent.status = "failed" ∧ pr.status = "failed"
        ∧ pr.intent.gatewayUsed = some "simulator") := by
  refine ⟨rfl, ?_, ?_⟩
  · exact (decline_is_final.1 [gwErrA] [gwSucc] gwFail 500 "INR" "k" none _
      (by intro p hp; rcases List.mem_singleton.mp hp with rfl; rfl) rfl rfl).2.2
  · exact decline_is_final.2 extNone envNone dbW "pi_1" "40000000" "123" intentW
      [] [] simulatorGateway rfl rfl rfl (by intro p hp; cases hp) rfl

/-- C2: when the first candidate errors (or raises, normalized to
ERROR) and the second succeeds, the final result is the second
candidate's SUCCESS, gateway_used is the second candidate's name, the
trace holds an error entry for the first strictly before a success
entry for the second, and inside process_payment such a SUCCESS final
result commits the intent as succeeded via the second candidate. -/
theorem failover_on_error :
    (∀ (g1 g2 : Gateway) (rest : List Gateway) (amount : Int)
        (currency idempotencyKey : String) (metadata : Option MetaDict)
        (out : FailoverOutput),
      (normCharge g1 amount currency idempotencyKey metadata).status = .error →
      (normCharge g2 amount currency idempotencyKey metadata).status = .success →
      executeWithFailover (g1 :: g2 :: rest) amount currency idempotencyKey metadata = out →
      out.result.gatewayResult = some (normCharge g2 amount currency idempotencyKey metadata)
      ∧ out.result.gatewayUsed = g2.name
      ∧ ∃ i j : Nat, i < j
          ∧ out.result.trace[i]? =
              some (errorEntry g1 (normCharge g1 amount currency idempotencyKey metadata).reason)
          ∧ out.result.trace[j]? = some (successEntry g2))
    ∧ (∀ (ext : ExternalBehavior) (env : Env) (db : Db)
        (paymentIntentId cardNumber cvv : String) (intent : PaymentIntent)
        (g1 g2 : Gateway) (rest : List Gateway),
      db.intents.find? (fun i => i.id == paymentIntentId) = some intent →
      (intent.status == "succeeded" || intent.status == "failed"
        || intent.status == "cancelled") = false →
      selectGateways db.rules db.health intent.merchantId intent.amount intent.currency
        (getAvailableGateways ext env db.configs intent.merchantId) = .ok (g1 :: g2 :: rest) →
      (normCharge g1 intent.amount intent.currency intent.idempotencyKey
        (some ⟨some cardNumber, some cvv⟩)).status = .error →
      (normCharge g2 intent.amount intent.currency intent.idempotencyKey
        (some ⟨some cardNumber, some cvv⟩)).status = .success →
      ∃ pr, (processPayment ext env db paymentIntentId cardNumber cvv).2 = .ok pr
        ∧ pr.intent.status = "succeeded" ∧ pr.status = "succeeded"
        ∧ pr.intent.gatewayUsed = some g2.name) := by
  constructor
  · intro g1 g2 rest amount currency idempotencyKey metadata out h1 h2 hout
    have hl : failoverLoop amount currency idempotencyKey metadata (g1 :: g2 :: rest) =
        (routingEntry g1 currency
          :: errorEntry g1 (normCharge g1 amount currency idempotencyKey metadata).reason
          :: ⟨"engine", "Switching to " ++ pyCapitalize g2.name ++ " backup..."⟩
          :: routingEntry g2 currency :: successEntry g2 :: [],
          [g1.name, g2.name],
          some (normCharge g2 amount currency idempotencyKey metadata, g2.name)) := by
      simp [failoverLoop, h1, h2]
    subst hout
    refine ⟨?_, ?_, 3, 6, by omega, ?_, ?_⟩
    · simp [executeWithFailover, hl]
    · simp [executeWithFailover, hl]
    · simp [executeWithFailover, hl]
    · simp [executeWithFailover, hl]
  · intro ext env db paymentIntentId cardNumber cvv intent g1 g2 rest hfind hguard hsel h1 h2
    have hterm := executeWithFailover_terminal [g1] rest g2 intent.amount intent.currency
      intent.idempotencyKey (some ⟨some cardNumber, some cvv⟩)
      (by intro p hp; rcases List.mem_singleton.mp hp with rfl; exact h1) (Or.inr h2)
    simp only [List.cons_append, List.nil_append] at hterm
    have hcf : computeFailover ext env (setIntent db paymentIntentId (markProcessing intent))
        (markProcessing intent) cardNumber cvv
        = .ok (executeWithFailover (g1 :: g2 :: rest) intent.amount intent.currency
            intent.idempotencyKey (some ⟨some cardNumber, some cvv⟩)) := by
      simp only [computeFailover, setIntent, markProcessing]
      rw [hsel]
    simp only [processPayment, hfind, hguard]
    rw [hcf]
    simp only [Bool.false_eq_true, if_false]
    refine ⟨_, rfl, ?_, ?_, ?_⟩
    · simp [hterm.1, hterm.2.1, h2]
    · simp [hterm.1, hterm.2.1, h2]
    · simp [hterm.1, hterm.2.1, h2]

/-- Witness for failover_on_error: a concrete error-then-success pair,
and a concrete process_payment run where the stripe env-fallback
adapter raises and the simulator succeeds. -/
theorem failover_on_error_witness :
    ((normCharge gwErrA 500 "INR" "k" none).status = .error)
    ∧ ((normCharge gwSucc 500 "INR" "k" none).status = .success)
    ∧ ((executeWithFailover [gwErrA, gwSucc] 500 "INR" "k" none).result.gatewayUsed = "gws")
    ∧ (∃ i j : Nat, i < j
        ∧ (executeWithFailover [gwErrA, gwSucc] 500 "INR" "k" none).result.trace[i]? =
            some (errorEntry gwErrA "timeout A")
        ∧ (executeWithFailover [gwErrA, gwSucc] 500 "INR" "k" none).result.trace[j]? =
            some (successEntry gwSucc))
    ∧ (∃ pr, (processPayment extNone envStripe dbW "pi_1" "4111111111111111" "123").2 = .ok pr
        ∧ pr.intent.status = "succeeded" ∧ pr.status = "succeeded"
        ∧ pr.intent.gatewayUsed = some "simulator") := by
  refine ⟨rfl, rfl, ?_, ?_, ?_⟩
  · exact (failover_on_error.1 gwErrA gwSucc [] 500 "INR" "k" none _ rfl rfl rfl).2.1
  · exact (failover_on_error.1 gwErrA gwSucc [] 500 "INR" "k" none _ rfl rfl rfl).2.2
  · exact failover_on_error.2 extNone envStripe dbW "pi_1" "4111111111111111" "123" intentW
      (stripeAdapter extNone "sk_test") simulatorGateway [] rfl rfl rfl rfl rfl

/-- C7 counterexample: with two candidates both returning retryable
errors (reasons "timeout A" and "timeout B"), the final GatewayResult
is not the last candidate's GatewayError — the executor synthesizes a
generic result instead, so the claim that the last GatewayError
becomes the final result is false on this input. -/
theorem last_error_final_counterexample :
    (executeWithFailover [gwErrA, gwErrB] 500 "INR" "k" none).result.gatewayResult
      ≠ some (normCharge gwErrB 500 "INR" "k" none) := by
  decide

/-- C7 amended: when every candidate of a non-empty list errors, the
executor synthesizes the fixed generic ERROR result attributed to
nexus (the last candidate's error reason survives only as a trace
entry), and gateway_used is the last-attempted candidate's name. -/
theorem all_errors_exhausted (gws : List Gateway) (amount : Int)
    (currency idempotencyKey : String) (metadata : Option MetaDict) (glast : Gateway)
    (herr : ∀ g ∈ gws, (normCharge g amount currency idempotencyKey metadata).status = .error)
    (hlast : gws.getLast? = some glast) :
    (executeWithFailover gws amount currency idempotencyKey metadata).result.gatewayResult
      = some exhaustedResult
    ∧ (executeWithFailover gws amount currency idempotencyKey metadata).result.gatewayUsed
      = glast.name
    ∧ errorEntry glast (normCharge glast amount currency idempotencyKey metadata).reason
        ∈ (executeWithFailover gws amount currency idempotencyKey metadata).result.trace := by
  obtain ⟨h1, h2, h3⟩ := failoverLoop_all_error amount currency idempotencyKey metadata gws herr
  have hmem : glast ∈ gws := List.mem_of_getLast?_eq_some hlast
  rcases hE : failoverLoop amount currency idempotencyKey metadata gws with ⟨tr, att, fin⟩
  rw [hE] at h1 h3
  simp only at h1
  subst h1
  have h3' := h3 glast hmem
  simp only at h3'
  refine ⟨?_, ?_, ?_⟩
  · simp [executeWithFailover, hE]
  · simp [executeWithFailover, hE, hlast]
  · simp [executeWithFailover, hE, h3']

/-- Witness for all_errors_exhausted: the two all-error candidates. -/
theorem all_errors_exhausted_witness :
    ((normCharge gwErrB 500 "INR" "k" none).status = .error)
    ∧ ([gwErrA, gwErrB].getLast? = some gwErrB)
    ∧ ((executeWithFailover [gwErrA, gwErrB] 500 "INR" "k" none).result.gatewayResult
        = some exhaustedResult)
    ∧ ((executeWithFailover [gwErrA, gwErrB] 500 "INR" "k" none).result.gatewayUsed = "gwb")
    ∧ (errorEntry gwErrB "timeout B"
        ∈ (executeWithFailover [gwErrA, gwErrB] 500 "INR" "k" none).result.trace) := by
  have h := all_errors_exhausted [gwErrA, gwErrB] 500 "INR" "k" none gwErrB
    (by intro g hg; rcases List.mem_cons.mp hg with rfl | hg'
        · rfl
        · rcases List.mem_singleton.mp hg' with rfl; rfl) rfl
  exact ⟨rfl, rfl, h.1, h.2.1, h.2.2⟩

/-- C9: the simulator's charge decision equals the deterministic rule
(card ending 0000 declines with insufficient funds; otherwise amounts
strictly above 100000 decline as fraud risk; otherwise success with an
approval reason), and it never returns the retryable ERROR status. -/
theorem simulator_decision_rule (amount : Int) (currency idempotencyKey : String)
    (metadata : Option MetaDict) :
    simulatorCharge amount currency idempotencyKey metadata =
      (if pyEndsWith ((metadata.getD ⟨none, none⟩).cardNumber.getD "4111111111111111") "0000"
       then ⟨.failed, "simulator", none, "Insufficient funds."⟩
       else if amount > 100000 then
         ⟨.failed, "simulator", none,
           "Transaction flagged for fraud risk (amount exceeds limit)."⟩
       else ⟨.success, "simulator", some ("sim_" ++ pyTake idempotencyKey 16),
         "Authorization approved."⟩)
    ∧ (simulatorCharge amount currency idempotencyKey metadata).status ≠ .error := by
  by_cases h1 : pyEndsWith ((metadata.getD ⟨none, none⟩).cardNumber.getD "4111111111111111") "0000"
  · constructor
    · simp [simulatorCharge, authorizePayment, h1]
    · simp [simulatorCharge, authorizePayment, h1]
  · by_cases h2 : amount > 100000
    · constructor
      · simp [simulatorCharge, authorizePayment, h1, h2]
      · simp [simulatorCharge, authorizePayment, h1, h2]
    · constructor
      · simp [simulatorCharge, authorizePayment, h1, h2]
      · simp [simulatorCharge, authorizePayment, h1, h2]

/-- A terminal (already succeeded) intent fixture. -/
def intentDone : PaymentIntent := ⟨"pi_2", "m1", 5000, "INR", "succeeded", "key2", none, none⟩

/-- A database holding just the terminal fixture intent. -/
def dbDone : Db := ⟨[intentDone], [], [], []⟩

/-- C3: process_payment on an intent in a terminal state (succeeded,
failed or cancelled) yields the 409 Conflict failure with the database
completely unchanged, and on a missing intent id yields the 404
NotFound failure with the database completely unchanged; both guards
run before any state transition. -/
theorem terminal_guard :
    (∀ (ext : ExternalBehavior) (env : Env) (db : Db)
        (paymentIntentId cardNumber cvv : String) (intent : PaymentIntent),
      db.intents.find? (fun i => i.id == paymentIntentId) = some intent →
      (intent.status = "succeeded" ∨ intent.status = "failed" ∨ intent.status = "cancelled") →
      processPayment ext env db paymentIntentId cardNumber cvv = (db, .error .conflict))
    ∧ (∀ (ext : ExternalBehavior) (env : Env) (db : Db)
        (paymentIntentId cardNumber cvv : String),
      db.intents.find? (fun i => i.id == paymentIntentId) = none →
      processPayment ext env db paymentIntentId cardNumber cvv = (db, .error .notFound)) := by
  constructor
  · intro ext env db paymentIntentId cardNumber cvv intent hfind hterm
    rcases hterm with h | h | h <;> simp [processPayment, hfind, h]
  · intro ext env db paymentIntentId cardNumber cvv hfind
    simp [processPayment, hfind]

/-- Witness for terminal_guard: the succeeded fixture intent is
rejected with Conflict and an unknown id with NotFound, both leaving
the database untouched. -/
theorem terminal_guard_witness :
    (dbDone.intents.find? (fun i => i.id == "pi_2") = some intentDone)
    ∧ (intentDone.status = "succeeded")
    ∧ (processPayment extNone envNone dbDone "pi_2" "4242" "123" = (dbDone, .error .conflict))
    ∧ (dbDone.intents.find? (fun i => i.id == "pi_9") = none)
    ∧ (processPayment extNone envNone dbDone "pi_9" "4242" "123" = (dbDone, .error .notFound)) := by
  refine ⟨rfl, rfl, ?_, rfl, ?_⟩
  · exact terminal_guard.1 extNone envNone dbDone "pi_2" "4242" "123" intentDone rfl (Or.inl rfl)
  · exact terminal_guard.2 extNone envNone dbDone "pi_9" "4242" "123" rfl

/-- C4: two create calls with the same idempotency key — the second
call returns the first call's intent unchanged with created = False and
leaves the database unchanged, whatever its merchant, amount and
currency arguments; when the key was fresh, the first call reports
created = True and exactly one row with that key exists afterwards. -/
theorem create_idempotent (db db1 db2 : Db) (i1 i2 : PaymentIntent) (b1 b2 : Bool)
    (m1 m2 : String) (a1 a2 : Int) (c1 c2 key f1 f2 : String)
    (h1 : createIntent db m1 a1 c1 key f1 = (db1, i1, b1))
    (h2 : createIntent db1 m2 a2 c2 key f2 = (db2, i2, b2)) :
    i2 = i1 ∧ b2 = false ∧ db2 = db1
    ∧ (db.intents.countP (fun i => i.idempotencyKey == key) = 0 →
        b1 = true ∧ db2.intents.countP (fun i => i.idempotencyKey == key) = 1) := by
  rcases hfind : db.intents.find? (fun i => i.idempotencyKey == key) with _ | e
  · simp only [createIntent, hfind, Prod.mk.injEq] at h1
    obtain ⟨hdb1, hi1, hb1⟩ := h1
    have hfind2 : db1.intents.find? (fun i => i.idempotencyKey == key) = some i1 := by
      rw [← hdb1, ← hi1]
      simp [List.find?_append, hfind]
    simp only [createIntent, hfind2, Prod.mk.injEq] at h2
    obtain ⟨hdb2, hi2, hb2⟩ := h2
    refine ⟨hi2.symm, hb2.symm, hdb2.symm, fun h0 => ⟨hb1.symm, ?_⟩⟩
    rw [← hdb2, ← hdb1]
    simp [List.countP_append, h0, List.countP_cons]
  · simp only [createIntent, hfind, Prod.mk.injEq] at h1
    obtain ⟨hdb1, hi1, hb1⟩ := h1
    have hfind2 : db1.intents.find? (fun i => i.idempotencyKey == key) = some e := by
      rw [← hdb1]; exact hfind
    simp only [createIntent, hfind2, Prod.mk.injEq] at h2
    obtain ⟨hdb2, hi2, hb2⟩ := h2
    refine ⟨hi2.symm.trans hi1, hb2.symm, hdb2.symm, fun h0 => ?_⟩
    exfalso
    have hp := List.find?_some hfind
    have hnp := List.countP_eq_zero.mp h0 _ (List.mem_of_find?_eq_some hfind)
    simp [hp] at hnp

/-- Witness for create_idempotent: a fresh key created once and
replayed once on the fixture database. -/
theorem create_idempotent_witness :
    (dbW.intents.countP (fun i => i.idempotencyKey == "k9") = 0)
    ∧ ((createIntent (createIntent dbW "m2" 700 "usd" "k9" "aaaa").1
          "m3" 800 "eur" "k9" "bbbb").2.1
        = (createIntent dbW "m2" 700 "usd" "k9" "aaaa").2.1)
    ∧ ((createIntent (createIntent dbW "m2" 700 "usd" "k9" "aaaa").1
          "m3" 800 "eur" "k9" "bbbb").2.2 = false)
    ∧ (((createIntent (createIntent dbW "m2" 700 "usd" "k9" "aaaa").1
          "m3" 800 "eur" "k9" "bbbb").1).intents.countP
            (fun i => i.idempotencyKey == "k9") = 1) := by
  have h := create_idempotent dbW _ _ _ _ _ _ "m2" "m3" 700 800 "usd" "eur" "k9" "aaaa" "bbbb"
    rfl rfl
  exact ⟨rfl, h.1, h.2.1, (h.2.2.2 rfl).2⟩

/-- An amount_threshold rule whose conditions parse to valid JSON with
a string (ill-typed) min_amount value. -/
def ruleBadAmount : RoutingRule :=
  ⟨"m1", "amount_threshold", "gwa", .text (.good (.jobj [("min_amount", .jstr "high")])), 0⟩

/-- C6 counterexample: condition data that parses as JSON but carries a
string min_amount makes _matches raise an uncaught TypeError (the
comparison sits outside the try/except), so malformed condition data is
not always treated as a non-match: the claim "never an error" is false
at this input. -/
theorem rule_match_error_counterexample :
    matchesRule ruleBadAmount 5 "INR" = .error .typeError := rfl

/-- C6 amended: a priority rule always matches (even with malformed
conditions); a currency rule with a well-typed conditions object
matches iff the configured currency equals the payment currency
case-insensitively; an amount_threshold rule with a well-typed
conditions object matches iff amount is at least the configured
minimum; an unrecognized rule type never matches whatever its
conditions; unparseable (non-JSON) condition text yields a non-match
for non-priority rules; but condition data that parses to ill-typed
JSON raises an uncaught fault rather than being a non-match. -/
theorem rule_match_semantics :
    (∀ (r : RoutingRule) (amount : Int) (currency : String),
      r.ruleType = "priority" → matchesRule r amount currency = .ok true)
    ∧ (∀ (m g : String) (p : Int) (cond : String) (amount : Int) (currency : String),
      matchesRule ⟨m, "currency", g, .text (.good (.jobj [("currency", .jstr cond)])), p⟩
        amount currency = .ok (pyUpper currency == pyUpper cond))
    ∧ (∀ (m g : String) (p minAmount amount : Int) (currency : String),
      matchesRule ⟨m, "amount_threshold", g,
          .text (.good (.jobj [("min_amount", .jnum minAmount)])), p⟩ amount currency
        = .ok (decide (amount ≥ minAmount)))
    ∧ (∀ (r : RoutingRule) (amount : Int) (currency : String),
      r.ruleType ≠ "priority" → r.ruleType ≠ "currency" → r.ruleType ≠ "amount_threshold" →
      matchesRule r amount currency = .ok false)
    ∧ (∀ (r : RoutingRule) (amount : Int) (currency : String),
      r.ruleType ≠ "priority" → r.conditions = .text .bad →
      matchesRule r amount currency = .ok false) := by
  refine ⟨?_, ?_, ?_, ?_, ?_⟩
  · intro r amount currency h
    simp [matchesRule, h]
  · intro m g p cond amount currency
    rfl
  · intro m g p minAmount amount currency
    rfl
  · intro r amount currency h1 h2 h3
    cases hc : r.conditions with
    | falsy => simp [matchesRule, matchesParsed, hc, h1, h2, h3]
    | text pr =>
      cases pr with
      | bad => simp [matchesRule, hc, h1]
      | good v => simp [matchesRule, matchesParsed, hc, h1, h2, h3]
  · intro r amount currency h1 hc
    simp [matchesRule, hc, h1]

/-- Witness for rule_match_semantics: the concrete examples of the
spec (min_amount 10000 against 10000 and 9999, INR against inr and
USD), a priority rule with unparseable conditions, an unknown rule
type, and a currency rule with unparseable conditions. -/
theorem rule_match_semantics_witness :
    (matchesRule ⟨"m1", "priority", "gwa", .text .bad, 0⟩ 5 "INR" = .ok true)
    ∧ (matchesRule ⟨"m1", "currency", "gwa",
        .text (.good (.jobj [("currency", .jstr "INR")])), 0⟩ 5 "inr" = .ok true)
    ∧ (matchesRule ⟨"m1", "currency", "gwa",
        .text (.good (.jobj [("currency", .jstr "INR")])), 0⟩ 5 "USD" = .ok false)
    ∧ (matchesRule ⟨"m1", "amount_threshold", "gwa",
        .text (.good (.jobj [("min_amount", .jnum 10000)])), 0⟩ 10000 "INR" = .ok true)
    ∧ (matchesRule ⟨"m1", "amount_threshold", "gwa",
        .text (.good (.jobj [("min_amount", .jnum 10000)])), 0⟩ 9999 "INR" = .ok false)
    ∧ (matchesRule ⟨"m1", "loyalty_tier", "gwa", .falsy, 0⟩ 5 "INR" = .ok false)
    ∧ (matchesRule ⟨"m1", "currency", "gwa", .text .bad, 0⟩ 5 "INR" = .ok false) := by
  refine ⟨?_, ?_, ?_, ?_, ?_, ?_, ?_⟩
  · exact rule_match_semantics.1 ⟨"m1", "priority", "gwa", .text .bad, 0⟩ 5 "INR" rfl
  · rw [rule_match_semantics.2.1 "m1" "gwa" 0 "INR" 5 "inr"]; rfl
  · rw [rule_match_semantics.2.1 "m1" "gwa" 0 "INR" 5 "USD"]; rfl
  · exact rule_match_semantics.2.2.1 "m1" "gwa" 0 10000 10000 "INR"
  · exact rule_match_semantics.2.2.1 "m1" "gwa" 0 10000 9999 "INR"
  · exact rule_match_semantics.2.2.2.1 ⟨"m1", "loyalty_tier", "gwa", .falsy, 0⟩ 5 "INR"
      (by decide) (by decide) (by decide)
  · exact rule_match_semantics.2.2.2.2 ⟨"m1", "currency", "gwa", .text .bad, 0⟩ 5 "INR"
      (by decide) rfl

/-! ## Dict lemmas for the gateway factory -/

theorem dictContains_map_insertKey (d : List (String × α)) (k k' : String) (v : α) :
    dictContains (d.map (fun kv => if kv.1 == k then (k, v) else kv)) k'
      = dictContains d k' := by
  induction d with
  | nil => rfl
  | cons kv rest ih =>
    simp only [List.map_cons, dictContains, List.any_cons] at ih ⊢
    by_cases h1 : (kv.1 == k) = true
    · rw [if_pos h1, ih, eq_of_beq h1]
    · rw [if_neg h1, ih]

theorem dictContains_insert (d : List (String × α)) (k k' : String) (v : α) :
    dictContains (dictInsert d k v) k' = (dictContains d k' || (k == k')) := by
  unfold dictInsert
  by_cases hc : dictContains d k = true
  · rw [if_pos hc, dictContains_map_insertKey]
    by_cases hkk : (k == k') = true
    · have hk : k = k' := eq_of_beq hkk
      subst hk
      simp [hc, hkk]
    · simp [hkk]
  · rw [if_neg hc]
    simp [dictContains, List.any_append]

theorem foldl_loadConfig_absent (ext : ExternalBehavior) (t : String) :
    ∀ (cs : List GatewayConfig) (acc : List (String × Gateway)),
      dictContains acc t = false →
      (∀ c ∈ cs, ¬(c.enabled = true ∧ c.gatewayName = t ∧ pyTruthy c.apiKeyEncrypted = true)) →
      dictContains (cs.foldl (loadConfig ext) acc) t = false := by
  intro cs
  induction cs with
  | nil => intro acc hacc _; exact hacc
  | cons c rest ih =>
    intro acc hacc hcs
    rw [List.foldl_cons]
    apply ih
    · unfold loadConfig
      by_cases he : c.enabled = true
      · by_cases hs : (c.gatewayName == "stripe" && pyTruthy c.apiKeyEncrypted) = true
        · have hs1 : c.gatewayName = "stripe" := eq_of_beq (Bool.and_elim_left hs)
          have hs2 : pyTruthy c.apiKeyEncrypted = true := Bool.and_elim_right hs
          have hne : ("stripe" == t) = false := by
            cases hb : ("stripe" == t)
            · rfl
            · exact absurd ⟨he, hs1.trans (eq_of_beq hb), hs2⟩ (hcs c (by simp))
          simp [he, hs, dictContains_insert, hacc, hne]
        · by_cases hr : (c.gatewayName == "razorpay" && pyTruthy c.apiKeyEncrypted) = true
          · have hr1 : c.gatewayName = "razorpay" := eq_of_beq (Bool.and_elim_left hr)
            have hr2 : pyTruthy c.apiKeyEncrypted = true := Bool.and_elim_right hr
            have hne : ("razorpay" == t) = false := by
              cases hb : ("razorpay" == t)
              · rfl
              · exact absurd ⟨he, hr1.trans (eq_of_beq hb), hr2⟩ (hcs c (by simp))
            simp [he, hs, hr, dictContains_insert, hacc, hne]
          · simp [he, hs, hr, hacc]
      · have he' : c.enabled = false := by
          cases hb : c.enabled
          · rfl
          · exact absurd hb he
        simp [he', hacc]
    · intro c' hc'
      exact hcs c' (by simp [hc'])

/-- C8 counterexample: a merchant with no GatewayConfig rows at all
still gets the simulator in the available-gateways mapping (the
factory always appends it), refuting the claim that a gateway with an
absent per-merchant config never appears. -/
theorem config_unavailable_counterexample :
    dictContains (getAvailableGateways extNone envNone [] "m1") "simulator" = true := rfl

/-- C8 amended: a stripe (resp. razorpay) gateway with no enabled,
credentialed per-merchant config row and no environment credentials
never appears in the available-gateways mapping, but environment
credentials can load a real gateway regardless of config, and the
simulator is always present regardless of config and health. -/
theorem gateway_availability (ext : ExternalBehavior) (env : Env)
    (configs : List GatewayConfig) (merchantId : String) :
    (pyTruthy env.stripeSecretKey = false →
      (∀ c ∈ configs, c.merchantId = merchantId →
        ¬(c.enabled = true ∧ c.gatewayName = "stripe" ∧ pyTruthy c.apiKeyEncrypted = true)) →
      dictContains (getAvailableGateways ext env configs merchantId) "stripe" = false)
    ∧ ((pyTruthy env.razorpayKeyId = false ∨ pyTruthy env.razorpayKeySecret = false) →
      (∀ c ∈ configs, c.merchantId = merchantId →
        ¬(c.enabled = true ∧ c.gatewayName = "razorpay" ∧ pyTruthy c.apiKeyEncrypted = true)) →
      dictContains (getAvailableGateways ext env configs merchantId) "razorpay" = false)
    ∧ (dictContains (getAvailableGateways ext env configs merchantId) "simulator" = true) := by
  have hfiltered : ∀ (t : String),
      (∀ c ∈ configs, c.merchantId = merchantId →
        ¬(c.enabled = true ∧ c.gatewayName = t ∧ pyTruthy c.apiKeyEncrypted = true)) →
      ∀ c ∈ configs.filter (fun c => c.merchantId == merchantId),
        ¬(c.enabled = true ∧ c.gatewayName = t ∧ pyTruthy c.apiKeyEncrypted = true) := by
    intro t h c hc
    have hm := List.mem_filter.mp hc
    exact h c hm.1 (eq_of_beq hm.2)
  refine ⟨?_, ?_, ?_⟩
  · intro henv hcfg
    have h1 := foldl_loadConfig_absent ext "stripe"
      (configs.filter (fun c => c.merchantId == merchantId)) [] rfl (hfiltered _ hcfg)
    simp only [getAvailableGateways]
    rw [dictContains_insert]
    have h2 : (!(dictContains ((configs.filter (fun c => c.merchantId == merchantId)).foldl
        (loadConfig ext) []) "stripe") && pyTruthy env.stripeSecretKey) = false := by
      rw [henv, Bool.and_false]
    rw [h2]
    simp only [Bool.false_eq_true, if_false]
    by_cases h3 : (!(dictContains ((configs.filter (fun c => c.merchantId == merchantId)).foldl
        (loadConfig ext) []) "razorpay") && pyTruthy env.razorpayKeyId
        && pyTruthy env.razorpayKeySecret) = true
    · simp [h3, dictContains_insert, h1]
    · simp [h3, h1]
  · intro henv hcfg
    have h1 := foldl_loadConfig_absent ext "razorpay"
      (configs.filter (fun c => c.merchantId == merchantId)) [] rfl (hfiltered _ hcfg)
    simp only [getAvailableGateways]
    rw [dictContains_insert]
    by_cases h2 : (!(dictContains ((configs.filter (fun c => c.merchantId == merchantId)).foldl
        (loadConfig ext) []) "stripe") && pyTruthy env.stripeSecretKey) = true
    · have h3 : (!(dictContains (dictInsert ((configs.filter
          (fun c => c.merchantId == merchantId)).foldl (loadConfig ext) []) "stripe"
          (stripeAdapter ext (env.stripeSecretKey.getD ""))) "razorpay")
          && pyTruthy env.razorpayKeyId && pyTruthy env.razorpayKeySecret) = false := by
        rcases henv with h | h
        · rw [h]; simp
        · rw [h]; simp
      simp only [h2, if_true, h3, Bool.false_eq_true, if_false]
      simp [dictContains_insert, h1]
    · have h3 : (!(dictContains ((configs.filter
          (fun c => c.merchantId == merchantId)).foldl (loadConfig ext) []) "razorpay")
          && pyTruthy env.razorpayKeyId && pyTruthy env.razorpayKeySecret) = false := by
        rcases henv with h | h
        · rw [h]; simp
        · rw [h]; simp
      simp only [h2, Bool.false_eq_true, if_false, h3]
      simp [h1]
  · simp only [getAvailableGateways]
    rw [dictContains_insert]
    simp

/-- A disabled stripe config row for the fixture merchant. -/
def cfgStripeOff : GatewayConfig := ⟨"m1", "stripe", false, some "enc"⟩

/-- Witness for gateway_availability: with only a disabled stripe
config and no environment credentials, stripe and razorpay are absent
from the mapping and the simulator is present. -/
theorem gateway_availability_witness :
    (pyTruthy envNone.stripeSecretKey = false)
    ∧ (dictContains (getAvailableGateways extNone envNone [cfgStripeOff] "m1") "stripe" = false)
    ∧ (dictContains (getAvailableGateways extNone envNone [cfgStripeOff] "m1") "razorpay" = false)
    ∧ (dictContains (getAvailableGateways extNone envNone [cfgStripeOff] "m1") "simulator" = true) := by
  have h := gateway_availability extNone envNone [cfgStripeOff] "m1"
  refine ⟨rfl, h.1 rfl ?_, h.2.1 (Or.inl rfl) ?_, h.2.2⟩
  · intro c hc _
    rcases List.mem_singleton.mp hc with rfl
    rintro ⟨he, -, -⟩
    exact absurd he (by decide)
  · intro c hc _
    rcases List.mem_singleton.mp hc with rfl
    rintro ⟨he, -, -⟩
    exact absurd he (by decide)

/-! ## Routing noninterference from measured health -/

theorem outageNames_congr (h1 h2 : List GatewayHealth)
    (hagree : h1.map (fun h => (h.gatewayName, h.isSimulatedOutage))
            = h2.map (fun h => (h.gatewayName, h.isSimulatedOutage))) :
    outageNames h1 = outageNames h2 := by
  induction h1 generalizing h2 with
  | nil =>
    have : h2 = [] := by
      cases h2 with
      | nil => rfl
      | cons b t => simp at hagree
    rw [this]
  | cons a t ih =>
    cases h2 with
    | nil => simp at hagree
    | cons b t2 =>
      simp only [List.map_cons, List.cons.injEq, Prod.mk.injEq] at hagree
      obtain ⟨⟨hn, hf⟩, ht⟩ := hagree
      simp only [outageNames, List.filter_cons]
      by_cases hflag : a.isSimulatedOutage = true
      · rw [if_pos hflag, if_pos (hf ▸ hflag)]
        simp only [List.map_cons]
        rw [hn]
        have := ih t2 ht
        simp only [outageNames] at this
        rw [this]
      · rw [if_neg hflag, if_neg (by rw [← hf]; exact hflag)]
        have := ih t2 ht
        simp only [outageNames] at this
        exact this

/-- C10: two select_gateways invocations agreeing on rules, merchant,
payment attributes, available gateways, and every health record's
gateway name and simulated-outage flag return identical candidate
lists even when the measured health fields (status, latency, message,
last-checked time) differ arbitrarily: measured health never
influences routing, only the outage flag does. -/
theorem routing_health_noninterference (rules : List RoutingRule)
    (merchantId : String) (amount : Int) (currency : String)
    (avail : List (String × Gateway)) (health1 health2 : List GatewayHealth)
    (hagree : health1.map (fun h => (h.gatewayName, h.isSimulatedOutage))
            = health2.map (fun h => (h.gatewayName, h.isSimulatedOutage))) :
    selectGateways rules health1 merchantId amount currency avail
      = selectGateways rules health2 merchantId amount currency avail := by
  have houts := outageNames_congr health1 health2 hagree
  simp only [selectGateways, houts]

/-- A healthy, fast health record for gateway gwa. -/
def healthGood : GatewayHealth := ⟨"gwa", "healthy", false, 5, "all good", 100⟩

/-- A down, slow health record for gateway gwa with the same outage
flag. -/
def healthBad : GatewayHealth := ⟨"gwa", "down", false, 9000, "unreachable", 200⟩

/-- Witness for routing_health_noninterference: flipping a record from
healthy/fast to down/slow (same name, same outage flag) leaves the
selected candidate list unchanged. -/
theorem routing_health_noninterference_witness :
    ([healthGood].map (fun h => (h.gatewayName, h.isSimulatedOutage))
      = [healthBad].map (fun h => (h.gatewayName, h.isSimulatedOutage)))
    ∧ (selectGateways [] [healthGood] "m1" 5000 "INR" [("gwa", gwSucc)]
        = selectGateways [] [healthBad] "m1" 5000 "INR" [("gwa", gwSucc)]) := by
  exact ⟨rfl, routing_health_noninterference [] "m1" 5000 "INR" [("gwa", gwSucc)]
    [healthGood] [healthBad] rfl⟩

/-! ## Stable sort lemmas -/

theorem mem_insertStable (le : α → α → Bool) (x a : α) :
    ∀ l : List α, a ∈ insertStable le x l ↔ a = x ∨ a ∈ l := by
  intro l
  induction l with
  | nil => simp [insertStable]
  | cons y ys ih =>
    by_cases h : le x y = true
    · simp [insertStable, h]
    · simp only [insertStable, if_neg h, List.mem_cons, ih]
      tauto

theorem mem_sortStable (le : α → α → Bool) (a : α) :
    ∀ l : List α, a ∈ sortStable le l ↔ a ∈ l := by
  intro l
  induction l with
  | nil => simp [sortStable]
  | cons y ys ih => simp [sortStable, mem_insertStable, ih]

theorem countP_insertStable (le : α → α → Bool) (p : α → Bool) (x : α) :
    ∀ l : List α,
      (insertStable le x l).countP p = l.countP p + (if p x then 1 else 0) := by
  intro l
  induction l with
  | nil => simp [insertStable, List.countP_cons]
  | cons y ys ih =>
    by_cases h : le x y = true
    · simp [insertStable, h, List.countP_cons] <;> omega
    · simp [insertStable, h, List.countP_cons, ih] <;> omega

theorem countP_sortStable (le : α → α → Bool) (p : α → Bool) :
    ∀ l : List α, (sortStable le l).countP p = l.countP p := by
  intro l
  induction l with
  | nil => rfl
  | cons y ys ih =>
    simp [sortStable, countP_insertStable, ih, List.countP_cons]

theorem insertStable_all_le (le : α → α → Bool) (x : α) :
    ∀ l : List α, (∀ z ∈ l, le x z = true) → insertStable le x l = x :: l := by
  intro l h
  cases l with
  | nil => rfl
  | cons y ys => simp [insertStable, h y (by simp)]

theorem insertStable_append_skip (le : α → α → Bool) (x : α) :
    ∀ (l₁ l₂ : List α), (∀ y ∈ l₁, le x y = false) →
      insertStable le x (l₁ ++ l₂) = l₁ ++ insertStable le x l₂ := by
  intro l₁
  induction l₁ with
  | nil => intro l₂ _; rfl
  | cons y ys ih =>
    intro l₂ h
    have hy : le x y = false := h y (by simp)
    simp only [List.cons_append, insertStable, hy, Bool.false_eq_true, if_false,
      List.append_eq]
    rw [ih l₂ (fun z hz => h z (by simp [hz]))]

theorem sorted_insertStable (le : α → α → Bool)
    (htrans : ∀ a b c, le a b = true → le b c = true → le a c = true)
    (htot : ∀ a b, le a b = true ∨ le b a = true) (x : α) :
    ∀ l : List α, l.Pairwise (fun a b => le a b = true) →
      (insertStable le x l).Pairwise (fun a b => le a b = true) := by
  intro l
  induction l with
  | nil => intro _; simp [insertStable]
  | cons y ys ih =>
    intro hs
    rcases List.pairwise_cons.mp hs with ⟨hy, hys⟩
    by_cases h : le x y = true
    · rw [insertStable, if_pos h]
      refine List.pairwise_cons.mpr ⟨?_, hs⟩
      intro z hz
      rcases List.mem_cons.mp hz with rfl | hz'
      · exact h
      · exact htrans x y z h (hy z hz')
    · rw [insertStable, if_neg h]
      refine List.pairwise_cons.mpr ⟨?_, ih hys⟩
      intro z hz
      rcases (mem_insertStable le x z ys).mp hz with rfl | hz'
      · rcases htot z y with h1 | h1
        · exact absurd h1 h
        · exact h1
      · exact hy z hz'

theorem sorted_sortStable (le : α → α → Bool)
    (htrans : ∀ a b c, le a b = true → le b c = true → le a c = true)
    (htot : ∀ a b, le a b = true ∨ le b a = true) :
    ∀ l : List α, (sortStable le l).Pairwise (fun a b => le a b = true) := by
  intro l
  induction l with
  | nil => simp [sortStable]
  | cons y ys ih => exact sorted_insertStable le htrans htot y _ ih

theorem filter_insertStable (le : α → α → Bool) (p : α → Bool)
    (htrans : ∀ a b c, le a b = true → le b c = true → le a c = true) (x : α) :
    ∀ l : List α, l.Pairwise (fun a b => le a b = true) →
      (insertStable le x l).filter p =
        if p x then insertStable le x (l.filter p) else l.filter p := by
  intro l
  induction l with
  | nil =>
    intro _
    by_cases hx : p x = true <;> simp [insertStable, List.filter_cons, hx]
  | cons y ys ih =>
    intro hs
    rcases List.pairwise_cons.mp hs with ⟨hy, hys⟩
    by_cases h : le x y = true
    · rw [insertStable, if_pos h]
      by_cases hx : p x = true
      · by_cases hpy : p y = true
        · rw [if_pos hx]
          simp only [List.filter_cons, hx, if_pos, hpy]
          rw [insertStable, if_pos h]
        · rw [if_pos hx]
          simp only [List.filter_cons, hx, if_pos, hpy, Bool.false_eq_true, if_false]
          rw [insertStable_all_le]
          intro z hz
          have hz' := List.of_mem_filter hz
          have hzys := List.mem_of_mem_filter hz
          exact htrans x y z h (hy z hzys)
      · simp only [List.filter_cons, hx, Bool.false_eq_true, if_false]
    · rw [insertStable, if_neg h]
      by_cases hpy : p y = true
      · simp only [List.filter_cons, hpy, if_pos, ih hys]
        by_cases hx : p x = true
        · rw [if_pos hx, if_pos hx, insertStable, if_neg h]
        · rw [if_neg hx, if_neg hx]
      · simp only [List.filter_cons, hpy, Bool.false_eq_true, if_false, ih hys]

theorem filter_sortStable (le : α → α → Bool) (p : α → Bool)
    (htrans : ∀ a b c, le a b = true → le b c = true → le a c = true)
    (htot : ∀ a b, le a b = true ∨ le b a = true) :
    ∀ l : List α, (sortStable le l).filter p = sortStable le (l.filter p) := by
  intro l
  induction l with
  | nil => rfl
  | cons y ys ih =>
    rw [sortStable, filter_insertStable le p htrans y _ (sorted_sortStable le htrans htot ys)]
    by_cases hpy : p y = true
    · rw [if_pos hpy, ih, List.filter_cons, if_pos hpy, sortStable]
    · rw [if_neg hpy, ih, List.filter_cons, if_neg hpy]

/-! ## Properties of the lexicographic string order -/

theorem charListLe_refl : ∀ l : List Char, charListLe l l = true := by
  intro l
  induction l with
  | nil => rfl
  | cons a as ih => simp [charListLe, ih]

theorem charListLe_trans :
    ∀ a b c : List Char, charListLe a b = true → charListLe b c = true →
      charListLe a c = true := by
  intro a
  induction a with
  | nil => intro b c _ _; rfl
  | cons x xs ih =>
    intro b c hab hbc
    cases b with
    | nil => simp [charListLe] at hab
    | cons y ys =>
      cases c with
      | nil => simp [charListLe] at hbc
      | cons z zs =>
        simp only [charListLe] at hab hbc ⊢
        by_cases hxy : x.toNat < y.toNat
        · by_cases hyz : y.toNat < z.toNat
          · simp [show x.toNat < z.toNat by omega]
          · by_cases hzy : z.toNat < y.toNat
            · simp [hyz, hzy] at hbc
            · simp [show x.toNat < z.toNat by omega]
        · by_cases hyx : y.toNat < x.toNat
          · simp [hxy, hyx] at hab
          · by_cases hyz : y.toNat < z.toNat
            · simp [show x.toNat < z.toNat by omega]
            · by_cases hzy : z.toNat < y.toNat
              · simp [hyz, hzy] at hbc
              · have hxz : ¬ x.toNat < z.toNat := by omega
                have hzx : ¬ z.toNat < x.toNat := by omega
                simp only [hxy, hyx, if_false, Bool.false_eq_true] at hab
                simp only [hyz, hzy, if_false, Bool.false_eq_true] at hbc
                simp only [hxz, hzx, if_false, Bool.false_eq_true]
                exact ih ys zs hab hbc

theorem charListLe_total :
    ∀ a b : List Char, charListLe a b = true ∨ charListLe b a = true := by
  intro a
  induction a with
  | nil => intro b; left; rfl
  | cons x xs ih =>
    intro b
    cases b with
    | nil => right; rfl
    | cons y ys =>
      simp only [charListLe]
      by_cases hxy : x.toNat < y.toNat
      · left; simp [hxy]
      · by_cases hyx : y.toNat < x.toNat
        · right; simp [hyx]
        · simpa [hxy, hyx] using ih ys

theorem strLe_trans : ∀ a b c : String,
    strLe a b = true → strLe b c = true → strLe a c = true := by
  intro a b c
  exact charListLe_trans a.toList b.toList c.toList

theorem strLe_total : ∀ a b : String, strLe a b = true ∨ strLe b a = true := by
  intro a b
  exact charListLe_total a.toList b.toList

/-! ## Splitting the fallback sort into non-simulator and simulator parts -/

theorem insertStable_simulator (k : String) (hk : (k == "simulator") = true) :
    ∀ S : List String, (∀ s ∈ S, (s == "simulator") = true) →
      insertStable fallbackLe k S = k :: S := by
  intro S hS
  cases S with
  | nil => rfl
  | cons s ss =>
    have hs := hS s (by simp)
    have hle : fallbackLe k s = true := by
      rw [fallbackLe, if_pos (by rw [hk, hs])]
      rw [eq_of_beq hk, eq_of_beq hs]
      exact charListLe_refl _
    rw [insertStable, if_pos hle]

theorem insertStable_nonsim (k : String) (hkf : (k == "simulator") = false) :
    ∀ (A S : List String), (∀ y ∈ A, (y == "simulator") = false) →
      (∀ s ∈ S, (s == "simulator") = true) →
      insertStable fallbackLe k (A ++ S) = insertStable strLe k A ++ S := by
  intro A
  induction A with
  | nil =>
    intro S _ hS
    cases S with
    | nil => rfl
    | cons s ss =>
      have hs := hS s (by simp)
      have hle : fallbackLe k s = true := by
        rw [fallbackLe, if_neg (by rw [hkf, hs]; exact Bool.false_ne_true)]
        exact hs
      show insertStable fallbackLe k (s :: ss) = k :: s :: ss
      rw [insertStable, if_pos hle]
  | cons a as ih =>
    intro S hA hS
    have ha := hA a (by simp)
    have hfb : fallbackLe k a = strLe k a := by
      rw [fallbackLe, if_pos (by rw [hkf, ha])]
    rw [List.cons_append, insertStable, insertStable, hfb]
    by_cases hka : strLe k a = true
    · rw [if_pos hka, if_pos hka, List.cons_append, List.cons_append]
    · rw [if_neg hka, if_neg hka, List.cons_append]
      rw [ih S (fun y hy => hA y (by simp [hy])) hS]

theorem sortStable_fallback :
    ∀ keys : List String,
      sortStable fallbackLe keys =
        sortStable strLe (keys.filter (fun n => !(n == "simulator")))
          ++ keys.filter (fun n => n == "simulator") := by
  intro keys
  induction keys with
  | nil => rfl
  | cons k ks ih =>
    rw [sortStable, ih]
    by_cases hk : (k == "simulator") = true
    · have hfilterA : (k :: ks).filter (fun n => !(n == "simulator"))
          = ks.filter (fun n => !(n == "simulator")) := by
        rw [List.filter_cons, if_neg (by rw [hk]; simp)]
      have hfilterS : (k :: ks).filter (fun n => n == "simulator")
          = k :: ks.filter (fun n => n == "simulator") := by
        rw [List.filter_cons, if_pos hk]
      have hskip : ∀ y ∈ sortStable strLe (ks.filter (fun n => !(n == "simulator"))),
          fallbackLe k y = false := by
        intro y hy
        have hyf := List.of_mem_filter ((mem_sortStable _ y _).mp hy)
        have hysim : (y == "simulator") = false := by
          cases hb : (y == "simulator")
          · rfl
          · rw [hb] at hyf; simp at hyf
        rw [fallbackLe, if_neg (by rw [hk, hysim]; simp)]
        exact hysim
      rw [hfilterA, hfilterS,
        insertStable_append_skip fallbackLe k _ _ hskip,
        insertStable_simulator k hk _ (fun s hs => by have h := List.of_mem_filter hs; exact h)]
    · have hkf : (k == "simulator") = false := by
        cases hb : (k == "simulator")
        · rfl
        · exact absurd hb hk
      have hfilterA : (k :: ks).filter (fun n => !(n == "simulator"))
          = k :: ks.filter (fun n => !(n == "simulator")) := by
        rw [List.filter_cons, if_pos (by rw [hkf]; rfl)]
      have hfilterS : (k :: ks).filter (fun n => n == "simulator")
          = ks.filter (fun n => n == "simulator") := by
        rw [List.filter_cons, if_neg (by rw [hkf]; exact Bool.false_ne_true)]
      have hA : ∀ y ∈ sortStable strLe (ks.filter (fun n => !(n == "simulator"))),
          (y == "simulator") = false := by
        intro y hy
        have hyf := List.of_mem_filter ((mem_sortStable _ y _).mp hy)
        cases hb : (y == "simulator")
        · rfl
        · rw [hb] at hyf; simp at hyf
      have hS : ∀ s ∈ ks.filter (fun n => n == "simulator"), (s == "simulator") = true :=
        fun s hs => by have h := List.of_mem_filter hs; exact h
      rw [hfilterA, hfilterS,
        insertStable_nonsim k hkf _ _ hA hS,
        show sortStable strLe (k :: ks.filter (fun n => !(n == "simulator")))
          = insertStable strLe k (sortStable strLe (ks.filter (fun n => !(n == "simulator"))))
          from rfl]

/-! ## Rule loop, dict lookup and counting lemmas -/

theorem contains_true_of_mem {l : List String} {a : String} (h : a ∈ l) :
    l.contains a = true := by
  simp [h]

theorem not_mem_of_contains_false {l : List String} {a : String}
    (h : l.contains a = false) : a ∉ l := by
  simp at h
  exact h

theorem mem_of_contains_true {l : List String} {a : String}
    (h : l.contains a = true) : a ∈ l := by
  simp at h
  exact h

theorem ruleLoop_ok_eq (amount : Int) (currency : String) (keys : List String) :
    ∀ (rs : List RoutingRule) (ordered out : List String),
      ruleLoop amount currency keys rs ordered = .ok out →
      out = refRuleSelect amount currency keys rs ordered := by
  intro rs
  induction rs with
  | nil =>
    intro ordered out h
    simp only [ruleLoop, Except.ok.injEq] at h
    rw [refRuleSelect, h]
  | cons r rs ih =>
    intro ordered out h
    cases h1 : keys.contains r.gatewayName with
    | false =>
      simp only [ruleLoop, h1, Bool.not_false, if_true] at h
      rw [refRuleSelect, h1]
      simp only [Bool.not_false, if_true]
      exact ih ordered out h
    | true =>
      cases h2 : ordered.contains r.gatewayName with
      | true =>
        simp only [ruleLoop, h1, h2, Bool.not_true, Bool.false_eq_true, if_false,
          if_true] at h
        rw [refRuleSelect, h1]
        simp only [Bool.not_true, Bool.false_eq_true, if_false, h2, if_true]
        exact ih ordered out h
      | false =>
        simp only [ruleLoop, h1, h2, Bool.not_true, Bool.false_eq_true, if_false] at h
        rw [refRuleSelect, h1]
        simp only [Bool.not_true, Bool.false_eq_true, if_false, h2]
        cases hm : matchesRule r amount currency with
        | error f => rw [hm] at h; exact absurd h (by simp)
        | ok b =>
          rw [hm] at h
          have hsm : specMatches r amount currency = b := by
            rw [specMatches, hm]
          cases b with
          | true =>
            rw [hsm]
            simp only [if_true]
            exact ih _ out h
          | false =>
            rw [hsm]
            simp only [Bool.false_eq_true, if_false]
            exact ih _ out h

theorem lookupAll_ok_eq (d : List (String × Gateway)) :
    ∀ (ns : List String) (gs : List Gateway),
      lookupAll d ns = .ok gs → gs = ns.filterMap (fun n => dictLookup d n) := by
  intro ns
  induction ns with
  | nil =>
    intro gs h
    simp only [lookupAll, Except.ok.injEq] at h
    rw [← h]
    rfl
  | cons n ns ih =>
    intro gs h
    rw [lookupAll] at h
    cases hl : dictLookup d n with
    | none => rw [hl] at h; exact absurd h (by simp)
    | some g =>
      rw [hl] at h
      cases hr : lookupAll d ns with
      | error f => rw [hr] at h; exact absurd h (by simp)
      | ok gs' =>
        rw [hr] at h
        simp only [Except.ok.injEq] at h
        rw [← h, List.filterMap_cons, hl, ih gs' hr]

theorem dictLookup_some_mem (k : String) (v : α) :
    ∀ d : List (String × α), dictLookup d k = some v → (k, v) ∈ d := by
  intro d
  induction d with
  | nil => intro h; exact absurd h (by simp [dictLookup])
  | cons kv rest ih =>
    intro h
    rw [dictLookup] at h
    by_cases hk : (kv.1 == k) = true
    · rw [if_pos hk, Option.some.injEq] at h
      refine List.mem_cons.mpr (Or.inl ?_)
      rw [← eq_of_beq hk, ← h]
    · rw [if_neg hk] at h
      exact List.mem_cons.mpr (Or.inr (ih h))

theorem dictLookup_of_mem_keys (k : String) :
    ∀ d : List (String × α), k ∈ d.map (fun kv => kv.1) →
      ∃ v, dictLookup d k = some v := by
  intro d
  induction d with
  | nil => intro h; exact absurd h (by simp)
  | cons kv rest ih =>
    intro h
    rw [dictLookup]
    by_cases hk : (kv.1 == k) = true
    · exact ⟨kv.2, if_pos hk⟩
    · rw [if_neg hk]
      apply ih
      rw [List.map_cons] at h
      rcases List.mem_cons.mp h with h' | h'
      · exact absurd (beq_iff_eq.mpr h'.symm) hk
      · exact h'

theorem map_name_filterMap (d : List (String × Gateway))
    (hname : ∀ kv ∈ d, kv.2.name = kv.1) :
    ∀ ns : List String, (∀ n ∈ ns, ∃ v, dictLookup d n = some v) →
      (ns.filterMap (fun n => dictLookup d n)).map (fun g => g.name) = ns := by
  intro ns
  induction ns with
  | nil => intro _; rfl
  | cons n ns ih =>
    intro hall
    obtain ⟨v, hv⟩ := hall n (by simp)
    rw [List.filterMap_cons, hv, List.map_cons, ih (fun m hm => hall m (by simp [hm]))]
    have hvn : v.name = n := hname (n, v) (dictLookup_some_mem n v d hv)
    rw [hvn]

theorem refRuleSelect_invariant (amount : Int) (currency : String) (keys : List String) :
    ∀ (rs : List RoutingRule) (ordered : List String),
      ordered.Nodup → (∀ n ∈ ordered, n ∈ keys) →
      (refRuleSelect amount currency keys rs ordered).Nodup
      ∧ ∀ n ∈ refRuleSelect amount currency keys rs ordered, n ∈ keys := by
  intro rs
  induction rs with
  | nil => intro ordered h1 h2; rw [refRuleSelect]; exact ⟨h1, h2⟩
  | cons r rs ih =>
    intro ordered h1 h2
    rw [refRuleSelect]
    cases hc1 : keys.contains r.gatewayName with
    | false =>
      simp only [hc1, Bool.not_false, if_true]
      exact ih ordered h1 h2
    | true =>
      simp only [hc1, Bool.not_true, Bool.false_eq_true, if_false]
      cases hc2 : ordered.contains r.gatewayName with
      | true =>
        simp only [if_true]
        exact ih ordered h1 h2
      | false =>
        simp only [Bool.false_eq_true, if_false]
        by_cases hm : specMatches r amount currency = true
        · rw [if_pos hm]
          apply ih
          · have hnm := not_mem_of_contains_false hc2
            simp [List.nodup_append, h1, hnm]
          · intro n hn
            rcases List.mem_append.mp hn with hn' | hn'
            · exact h2 n hn'
            · rcases List.mem_singleton.mp hn' with rfl
              exact mem_of_contains_true hc1
        · rw [if_neg hm]
          exact ih ordered h1 h2

theorem countP_beq_nodup (k : String) :
    ∀ l : List String, l.Nodup → k ∈ l → l.countP (fun n => n == k) = 1 := by
  intro l
  induction l with
  | nil => intro _ hmem; exact absurd hmem (List.not_mem_nil k)
  | cons a t ih =>
    intro hnd hmem
    rw [List.countP_cons]
    rcases List.mem_cons.mp hmem with rfl | hmem'
    · have hknot : k ∉ t := (List.nodup_cons.mp hnd).1
      have ht : t.countP (fun n => n == k) = 0 :=
        List.countP_eq_zero.mpr (fun x hx hbx => hknot (eq_of_beq hbx ▸ hx))
      simp [ht]
    · have hne : (a == k) = false := by
        cases hb : (a == k)
        · rfl
        · exact absurd (eq_of_beq hb ▸ hmem') (List.nodup_cons.mp hnd).1
      rw [hne, ih (List.nodup_cons.mp hnd).2 hmem']
      simp

/-- C5 counterexample: with one amount_threshold rule whose conditions
parse to a string min_amount and whose target gateway is available,
select_gateways raises an uncaught TypeError instead of returning a
list, so the returned list cannot equal the reference ordering: the
claim quantified over every input is false at this one. -/
theorem routing_reference_counterexample :
    selectGateways [ruleBadAmount] [] "m1" 5 "INR" [("gwa", gwErrA)]
      ≠ .ok (referenceSelect [ruleBadAmount] [] "m1" 5 "INR" [("gwa", gwErrA)]) := by
  intro h
  rw [show selectGateways [ruleBadAmount] [] "m1" 5 "INR" [("gwa", gwErrA)]
      = .error .typeError from rfl] at h
  exact Except.noConfusion h

/-- C5 amended: whenever select_gateways returns a list (no rule
raised), that list equals the spec reference ordering: rule-matched
gateways in ascending priority order, then the remaining available,
non-outage gateways sorted lexically with the simulator last; under
the factory invariants (adapter names equal their dict keys, unique
keys) every output gateway is non-outage-flagged and every available
non-excluded gateway appears exactly once. -/
theorem routing_matches_reference (rules : List RoutingRule) (health : List GatewayHealth)
    (merchantId : String) (amount : Int) (currency : String)
    (avail : List (String × Gateway)) (gs : List Gateway)
    (hsel : selectGateways rules health merchantId amount currency avail = .ok gs) :
    gs = referenceSelect rules health merchantId amount currency avail
    ∧ ((∀ kv ∈ avail, kv.2.name = kv.1) →
        ∀ g ∈ gs, (outageNames health).contains g.name = false)
    ∧ ((∀ kv ∈ avail, kv.2.name = kv.1) → (avail.map (fun kv => kv.1)).Nodup →
        ∀ k, k ∈ avail.map (fun kv => kv.1) → (outageNames health).contains k = false →
          (gs.map (fun g => g.name)).countP (fun n => n == k) = 1) := by
  simp only [selectGateways] at hsel
  set mrules := sortStable (fun a b => decide (a.priority ≤ b.priority))
      (rules.filter (fun r => r.merchantId == merchantId)) with hmrules
  set FA := avail.filter (fun kv => !((outageNames health).contains kv.1)) with hFA
  set keys := FA.map (fun kv => kv.1) with hkeys
  cases hrl : ruleLoop amount currency keys mrules [] with
  | error f => rw [hrl] at hsel; exact absurd hsel (by simp)
  | ok ordered =>
    rw [hrl] at hsel
    have hord : ordered = refRuleSelect amount currency keys mrules [] :=
      ruleLoop_ok_eq amount currency keys mrules [] ordered hrl
    have hgs : gs = (ordered ++ (sortStable fallbackLe keys).filter
        (fun n => !(ordered.contains n))).filterMap (fun n => dictLookup FA n) :=
      lookupAll_ok_eq FA _ gs hsel
    have hfb : (sortStable fallbackLe keys).filter (fun n => !(ordered.contains n))
        = sortStable strLe ((keys.filter (fun n => !(ordered.contains n))).filter
            (fun n => !(n == "simulator")))
          ++ (keys.filter (fun n => !(ordered.contains n))).filter
              (fun n => n == "simulator") := by
      rw [sortStable_fallback keys, List.filter_append]
      congr 1
      · rw [filter_sortStable strLe _ strLe_trans strLe_total]
        congr 1
        rw [List.filter_filter, List.filter_filter]
        exact List.filter_congr (fun a _ => Bool.and_comm _ _)
      · rw [List.filter_filter, List.filter_filter]
        exact List.filter_congr (fun a _ => Bool.and_comm _ _)
    have hinv := refRuleSelect_invariant amount currency keys mrules []
      List.nodup_nil (fun n hn => absurd hn (List.not_mem_nil n))
    have hordnd : ordered.Nodup := by rw [hord]; exact hinv.1
    have hordsub : ∀ n ∈ ordered, n ∈ keys := by rw [hord]; exact hinv.2
    refine ⟨?_, ?_, ?_⟩
    · rw [hgs]
      simp only [referenceSelect]
      rw [← hFA, ← hkeys, ← hord, ← hfb]
    · intro hname g hg
      rw [hgs] at hg
      obtain ⟨n, hn, hlk⟩ := List.mem_filterMap.mp hg
      have hmemFA := dictLookup_some_mem n g FA hlk
      rw [hFA] at hmemFA
      have hpair := List.mem_filter.mp hmemFA
      have hname_eq : g.name = n := hname (n, g) hpair.1
      have hflag : (!((outageNames health).contains n)) = true := hpair.2
      rw [hname_eq]
      cases hb : (outageNames health).contains n
      · rfl
      · rw [hb] at hflag; exact absurd hflag (by simp)
    · intro hname hnodup k hk hok
      have hFAname : ∀ kv ∈ FA, kv.2.name = kv.1 := by
        intro kv hkv
        rw [hFA] at hkv
        exact hname kv (List.mem_of_mem_filter hkv)
      have hkeysnd : keys.Nodup := by
        rw [hkeys, hFA]
        exact List.Nodup.sublist ((List.filter_sublist avail).map (fun kv => kv.1)) hnodup
      have hkkeys : k ∈ keys := by
        rw [hkeys, hFA]
        obtain ⟨kv, hkv, hfst⟩ := List.mem_map.mp hk
        apply List.mem_map.mpr
        refine ⟨kv, List.mem_filter.mpr ⟨hkv, ?_⟩, hfst⟩
        have hfst' : kv.1 = k := hfst
        rw [hfst', hok]
        rfl
      have hall : ∀ n ∈ ordered ++ (sortStable fallbackLe keys).filter
          (fun n => !(ordered.contains n)), ∃ v, dictLookup FA n = some v := by
        intro n hn
        apply dictLookup_of_mem_keys n FA
        rw [← hkeys]
        rcases List.mem_append.mp hn with hn' | hn'
        · exact hordsub n hn'
        · exact (mem_sortStable _ n _).mp (List.mem_of_mem_filter hn')
      have hnames : gs.map (fun g => g.name)
          = ordered ++ (sortStable fallbackLe keys).filter (fun n => !(ordered.contains n)) := by
        rw [hgs]
        exact map_name_filterMap FA hFAname _ hall
      rw [hnames, List.countP_append]
      by_cases hko : k ∈ ordered
      · rw [countP_beq_nodup k ordered hordnd hko]
        have hzero : ((sortStable fallbackLe keys).filter
            (fun n => !(ordered.contains n))).countP (fun n => n == k) = 0 := by
          apply List.countP_eq_zero.mpr
          intro x hx hbx
          have hq := List.of_mem_filter hx
          rw [eq_of_beq hbx] at hq
          have hcf : ordered.contains k = false := by
            cases hb : ordered.contains k
            · rfl
            · rw [hb] at hq; exact absurd hq (by simp)
          exact absurd hko (not_mem_of_contains_false hcf)
        rw [hzero]
      · have hzero : ordered.countP (fun n => n == k) = 0 :=
          List.countP_eq_zero.mpr (fun x hx hbx => hko (eq_of_beq hbx ▸ hx))
        rw [hzero, List.countP_filter, countP_sortStable, Nat.zero_add]
        have hcong : keys.countP (fun a => (a == k) && !(ordered.contains a))
            = keys.countP (fun n => n == k) := by
          apply List.countP_congr
          intro x hx
          constructor
          · intro hand
            exact Bool.and_elim_left hand
          · intro hbx
            have hcf : ordered.contains x = false := by
              cases hb : ordered.contains x
              · rfl
              · exact absurd (eq_of_beq hbx ▸ mem_of_contains_true hb) hko
            rw [hbx, hcf]
            rfl
        rw [hcong, countP_beq_nodup k keys hkeysnd hkkeys]

/-- A health record carrying an active simulated outage for an
unrelated gateway. -/
def healthOut : GatewayHealth := ⟨"gwz", "down", true, 1, "forced outage", 0⟩

/-- A two-gateway available dict for the routing witness. -/
def availW : List (String × Gateway) := [("gwa", gwErrA), ("simulator", simulatorGateway)]

/-- Witness for routing_matches_reference: a rule-free merchant with
two available gateways and one outage-flagged (unavailable) gateway. -/
theorem routing_matches_reference_witness :
    (selectGateways [] [healthOut] "m1" 5000 "INR" availW = .ok [gwErrA, simulatorGateway])
    ∧ ([gwErrA, simulatorGateway]
        = referenceSelect [] [healthOut] "m1" 5000 "INR" availW)
    ∧ ((outageNames [healthOut]).contains gwErrA.name = false)
    ∧ (([gwErrA, simulatorGateway].map (fun g => g.name)).countP
        (fun n => n == "gwa") = 1) := by
  have hname : ∀ kv ∈ availW, kv.2.name = kv.1 := by
    intro kv hkv
    rcases List.mem_cons.mp hkv with rfl | hkv'
    · rfl
    · rcases List.mem_singleton.mp hkv' with rfl
      rfl
  have h := routing_matches_reference [] [healthOut] "m1" 5000 "INR" availW
    [gwErrA, simulatorGateway] rfl
  refine ⟨rfl, h.1, ?_, ?_⟩
  · exact h.2.1 hname gwErrA (by simp)
  · exact h.2.2 hname (by decide) "gwa" (by simp [availW]) (by decide)

end Nexus
